import Mathlib

/-!
Verification of the PhotoMap spatiotemporal organization engine.

This file gives a shallow embedding of the core of the PhotoMap repository
(clustering service, media processor service, database service, media library
service) and proves or refutes the specification claims about it.

Modelling conventions:
* JS numbers are modelled as ℚ (coordinates, distances, progress percentages)
  or ℤ/ℕ (timestamps, counts).  None of the claims depend on floating-point
  rounding.
* The external geolib getDistance function (great-circle distance) is an
  imported library, not repository code; every definition that calls it is
  parametrised by a distance function `dist : (ℚ × ℚ) → (ℚ × ℚ) → ℚ`.
* A YYYY-MM-DD date string is determined by (and determines) the number of
  whole days between the Unix epoch and the formatted instant, so day keys are
  modelled as that integer (floored division of epoch milliseconds by 86400000).
* uuidv4() calls are modelled by a counter threaded through the pipeline: each
  created cluster consumes one fresh number.  Only freshness matters.
* String labels ('No GPS', 'Scattered Locations') are modelled by an inductive
  type.
-/

namespace PhotoMap

/-- External geolib getDistance, modelled as an abstract distance function on
(lat, lon) pairs. -/
def Dist : Type := (ℚ × ℚ) → (ℚ × ℚ) → ℚ

/-- A media asset (src/src/types/index.ts, MediaAsset).  Only the fields the
claims depend on are carried: `id`, `takenAt` (epoch milliseconds) and the
optional `lat`/`lon` coordinates.  The remaining fields (uri, width, …) are
never read by the clustering, grouping, scanning or repair logic. -/
structure MediaAsset where
  id : ℕ
  takenAt : ℤ
  lat : Option ℚ
  lon : Option ℚ
deriving DecidableEq, Repr, Inhabited

/-- Day index of `new Date(t).toISOString().split('T')[0]` (clustering
service getDateString, src/unnamed/part_002 lines 237-239): the UTC calendar
day of the timestamp, i.e. the floor of t / 86400000. -/
def getDateString (t : ℤ) : ℤ := Int.fdiv t 86400000

/-- Day index of `dayjs(t).format('YYYY-MM-DD')` (media processor
groupAssetsByDay, src/unnamed/part_004 line 286): the local calendar day,
i.e. the UTC day of the timestamp shifted by the device's UTC offset in
minutes.  The same local day is produced by SQLite's
`date(taken_at / 1000, 'unixepoch', 'localtime')`. -/
def localDateString (off : ℤ) (t : ℤ) : ℤ := Int.fdiv (t + off * 60000) 86400000

/-- An asset is geotagged when both lat and lon are present
(`asset.lat !== undefined && asset.lon !== undefined`). -/
def isGeotagged (a : MediaAsset) : Bool := a.lat.isSome && a.lon.isSome

/-- Coordinate pair of a geotagged asset (`asset.lat!`, `asset.lon!`). -/
def coordOf (a : MediaAsset) : ℚ × ℚ := (a.lat.getD 0, a.lon.getD 0)

/-- Cluster labels used by the clustering service. -/
inductive ClusterLabel where
  | noGPS
  | scattered
deriving DecidableEq, Repr

/-- A cluster (src/src/types/index.ts, Cluster). -/
structure Cluster where
  id : ℕ
  dayDate : ℤ
  centroidLat : ℚ
  centroidLon : ℚ
  label : Option ClusterLabel
  assets : List MediaAsset
  radius : ℚ
deriving DecidableEq, Repr

instance : Inhabited Cluster := ⟨⟨0, 0, 0, 0, none, [], 0⟩⟩

/-! ## Optimal radius estimator (claim C3)

calculateOptimalRadius, src/unnamed/part_002 lines 244-271.  The JS code
indexes `lowerHalf[Math.floor(lowerHalf.length / 2)]`; when `lowerHalf` is
empty this is `undefined`, and `Math.max(100, Math.min(1000, undefined))`
evaluates to NaN.  The absent-number outcome is modelled as `none`. -/

/-- DEFAULT_RADIUS of the clustering service. -/
def DEFAULT_RADIUS : ℚ := 300

/-- DEFAULT_MIN_POINTS of the clustering service. -/
def DEFAULT_MIN_POINTS : ℤ := 2

/-- All pairwise distances between geotagged assets, in the double-loop order
`for i; for j = i+1`. -/
def pairwiseDistances (dist : Dist) (geo : List MediaAsset) : List ℚ :=
  (List.range geo.length).flatMap fun i =>
    ((List.range geo.length).drop (i + 1)).map fun j =>
      dist (coordOf (geo.getD i default)) (coordOf (geo.getD j default))

/-- calculateOptimalRadius (src/unnamed/part_002 lines 244-271).  Sorts the
pairwise distances ascending (stable insertion sort — stable sorting under a
fixed comparator has a unique result), takes the lower half
(`slice(0, floor(n/2))`), indexes its middle element, and clamps it to
[100, 1000]; returns `none` when the indexed element is `undefined` (NaN
result), which happens exactly when the lower half is empty. -/
def calculateOptimalRadius (dist : Dist) (assets : List MediaAsset) : Option ℚ :=
  let geotaggedAssets := assets.filter isGeotagged
  if geotaggedAssets.length < 2 then
    some DEFAULT_RADIUS
  else
    let distances := pairwiseDistances dist geotaggedAssets
    let sorted := distances.insertionSort (· ≤ ·)
    let lowerHalf := sorted.take (distances.length / 2)
    match lowerHalf.get? (lowerHalf.length / 2) with
    | none => none
    | some medianDistance => some (max 100 (min 1000 medianDistance))

/-! ## Scan re-entrancy guards (claim C5)

The in-flight flags and entry checks of the media processor service
(src/unnamed/part_004): performFullScan lines 19-24, performIncrementalScan
lines 202-207, performBatchedScan lines 432-437. -/

/-- The two in-flight flags of MediaProcessorService. -/
structure ScanFlags where
  isProcessing : Bool
  batchProcessing : Bool
deriving DecidableEq, Repr

/-- Outcome of calling one of the scan entry points. -/
inductive ScanCallResult where
  /-- The call passed the guard and the scan body runs. -/
  | started
  /-- The call threw `new Error('Media scanning already in progress')`. -/
  | rejected
  /-- The call returned immediately without scanning and without error. -/
  | skippedSilently
deriving DecidableEq, Repr

/-- Entry guard of performFullScan (src/unnamed/part_004 lines 19-24):
`if (this.isProcessing) throw …; this.isProcessing = true`. -/
def performFullScanGuard (s : ScanFlags) : ScanCallResult × ScanFlags :=
  if s.isProcessing then (.rejected, s)
  else (.started, { s with isProcessing := true })

/-- Entry guard of performIncrementalScan (src/unnamed/part_004 lines
202-207): `if (this.isProcessing) return; … this.isProcessing = true`. -/
def performIncrementalScanGuard (s : ScanFlags) : ScanCallResult × ScanFlags :=
  if s.isProcessing then (.skippedSilently, s)
  else (.started, { s with isProcessing := true })

/-- Entry guard of performBatchedScan (src/unnamed/part_004 lines 432-437):
`if (this.isProcessing || this.batchProcessing) throw …;
this.batchProcessing = true`. -/
def performBatchedScanGuard (s : ScanFlags) : ScanCallResult × ScanFlags :=
  if s.isProcessing || s.batchProcessing then (.rejected, s)
  else (.started, { s with batchProcessing := true })

/-! ## Device deletion batching (claim C10)

deleteAssets, src/src/services/mediaLibrary.ts lines 110-141. -/

/-- Outcome of one external MediaLibrary.deleteAssetsAsync call (external
library, modelled as an oracle indexed by chunk number). -/
inductive DeleteOutcome where
  /-- The call resolved to true. -/
  | ok
  /-- The call resolved to false. -/
  | returnedFalse
  /-- The call threw. -/
  | threw
deriving DecidableEq, Repr

/-- The batches `assetIds.slice(i, i + 200)` for i = 0, 200, 400, …
(deleteAssets, src/src/services/mediaLibrary.ts lines 118-121). -/
def chunksOf200 (ids : List ℕ) : List (List ℕ) :=
  (List.range ((ids.length + 199) / 200)).map fun k => (ids.drop (200 * k)).take 200

/-- Accumulation of deletedIds/failedIds over the chunks: a chunk whose
deleteAssetsAsync call resolves true goes wholly to deletedIds, one that
resolves false or throws goes wholly to failedIds. -/
def deleteFold (oracle : ℕ → DeleteOutcome) (chunks : List (List ℕ)) :
    List ℕ × List ℕ :=
  (chunks.enum.foldl (fun acc p =>
    match oracle p.1 with
    | .ok => (acc.1 ++ p.2, acc.2)
    | .returnedFalse => (acc.1, acc.2 ++ p.2)
    | .threw => (acc.1, acc.2 ++ p.2)) ([], []))

/-- deleteAssets (src/src/services/mediaLibrary.ts lines 110-141): processes
the ids in chunks of 200 and returns
`(success := failedIds.length === 0, deletedIds, failedIds)`. -/
def deleteAssets (oracle : ℕ → DeleteOutcome) (ids : List ℕ) :
    Bool × List ℕ × List ℕ :=
  let r := deleteFold oracle (chunksOf200 ids)
  (r.2.isEmpty, r.1, r.2)

/-- Whether a chunk's deleteAssetsAsync call resolved true. -/
def DeleteOutcome.isOk : DeleteOutcome → Bool
  | .ok => true
  | _ => false

/-! ## Spatial clustering engine (claims C8, C9, and parts of C1, C4)

clusterByLocation, src/unnamed/part_002 lines 18-138.  The geotagged points
are represented by their indices into the geotagged-asset list; the mutable
`visited` flags are represented by the list of still-unvisited indices
(initially all of them), and the mutable `clusterId` fields by the list of
member-index lists of the clusters built so far (a point is assigned iff it
occurs in one of them — each point is pushed into a cluster exactly when its
clusterId is set, and only when it has none). -/

/-- getNeighbors (src/unnamed/part_002 lines 218-235): indices of all other
points whose getDistance from point i is at most the radius, in array order.
Self is skipped by object identity, i.e. index equality. -/
def getNeighbors (dist : Dist) (pts : List MediaAsset) (radius : ℚ) (i : ℕ) :
    List ℕ :=
  (List.range pts.length).filter fun j =>
    j != i && decide (dist (coordOf (pts.getD i default)) (coordOf (pts.getD j default)) ≤ radius)

/-- Whether point j carries a clusterId: it is a member of the current
cluster or of an earlier one (`!neighbor.clusterId`). -/
def assignedIn (prev : List (List ℕ)) (curC : List ℕ) (j : ℕ) : Bool :=
  curC.contains j || prev.any fun c => c.contains j

/-- The neighbor-queue extension of one expansion step (src/unnamed/part_002
lines 89-93): each new neighbor is appended unless some element already in
the queue (including elements appended moments before) has the same asset id.
`full` is the queue as it stands; the result is the list of appended
indices. -/
def enqueueExtra (pts : List MediaAsset) (full : List ℕ) (nn : List ℕ) :
    List ℕ :=
  nn.foldl (fun acc j =>
    if (full ++ acc).any (fun m => (pts.getD m default).id == (pts.getD j default).id)
    then acc else acc ++ [j]) []

/-- The indices appended to the queue when visiting `cur` (src/unnamed/
part_002 lines 83-95): if cur's own neighborhood meets minPoints, its unseen
neighbors are appended; otherwise nothing is. -/
def visitExtra (dist : Dist) (pts : List MediaAsset) (radius : ℚ)
    (minPoints : ℤ) (done : List ℕ) (cur : ℕ) (rest : List ℕ) : List ℕ :=
  let nn := getNeighbors dist pts radius cur
  if minPoints ≤ (nn.length : ℤ) then
    enqueueExtra pts (done ++ cur :: rest) nn
  else []

/-- The cluster-membership update of one expansion step (src/unnamed/part_002
lines 97-100): a queue element without a clusterId is appended to the current
cluster. -/
def maybeAssign (prev : List (List ℕ)) (curC : List ℕ) (cur : ℕ) : List ℕ :=
  if assignedIn prev curC cur then curC else curC ++ [cur]

/-- The cluster-expansion while-loop (src/unnamed/part_002 lines 79-103).
`done` holds the already-processed prefix of the neighbors array, `pending`
the rest; the full array is `done ++ pending`.  An unvisited queue element is
visited, its neighborhood inspected and possibly appended; then the element
is absorbed into the current cluster unless already assigned.  Returns the
final (unvisited, current-cluster-members) pair. -/
def expand (dist : Dist) (pts : List MediaAsset) (radius : ℚ) (minPoints : ℤ)
    (prev : List (List ℕ)) (unvisited : List ℕ) (curC : List ℕ)
    (done pending : List ℕ) : List ℕ × List ℕ :=
  match pending with
  | [] => (unvisited, curC)
  | cur :: rest =>
    if hv : cur ∈ unvisited then
      expand dist pts radius minPoints prev (unvisited.erase cur)
        (maybeAssign prev curC cur) (done ++ [cur])
        (rest ++ visitExtra dist pts radius minPoints done cur rest)
    else
      expand dist pts radius minPoints prev unvisited
        (maybeAssign prev curC cur) (done ++ [cur]) rest
termination_by (unvisited.length, pending.length)
decreasing_by
  · exact Prod.Lex.left _ _ (by have := List.length_erase_add_one hv; omega)
  · exact Prod.Lex.right _ (by simp)

/-- State of the outer DBSCAN loop: the unvisited indices and the member
lists of the clusters completed so far. -/
structure DBScanState where
  unvisited : List ℕ
  clusters : List (List ℕ)
deriving DecidableEq, Repr

/-- One iteration of the outer loop (src/unnamed/part_002 lines 53-106):
skip visited points; otherwise mark visited, compute the neighborhood, leave
the point unassigned when below minPoints, else seed a new cluster with the
point and expand it. -/
def outerStep (dist : Dist) (pts : List MediaAsset) (radius : ℚ)
    (minPoints : ℤ) (st : DBScanState) (i : ℕ) : DBScanState :=
  if st.unvisited.contains i then
    let unv := st.unvisited.erase i
    let nn := getNeighbors dist pts radius i
    if (nn.length : ℤ) < minPoints then ⟨unv, st.clusters⟩
    else
      let r := expand dist pts radius minPoints st.clusters unv [i] [] nn
      ⟨r.1, st.clusters ++ [r.2]⟩
  else st

/-- The whole DBSCAN pass over the geotagged points. -/
def runDBSCAN (dist : Dist) (pts : List MediaAsset) (radius : ℚ)
    (minPoints : ℤ) : DBScanState :=
  (List.range pts.length).foldl (outerStep dist pts radius minPoints)
    ⟨List.range pts.length, []⟩

/-- Centroid pass (src/unnamed/part_002 lines 129-135): the centroid of a
cluster with geotagged members is the arithmetic mean of their coordinates;
other clusters keep centroid (0, 0). -/
def computeCentroid (c : Cluster) : Cluster :=
  let geo := c.assets.filter isGeotagged
  if 0 < geo.length then
    { c with
      centroidLat := (geo.map fun a => a.lat.getD 0).sum / (geo.length : ℚ),
      centroidLon := (geo.map fun a => a.lon.getD 0).sum / (geo.length : ℚ) }
  else c

/-- The member-index lists produced by the DBSCAN pass over assets' geotagged
sublist (the local `clusters` array of clusterByLocation, as index lists). -/
def dbscanClusters (dist : Dist) (assets : List MediaAsset) (radius : ℚ)
    (minPoints : ℤ) : List (List ℕ) :=
  (runDBSCAN dist (assets.filter isGeotagged) radius minPoints).clusters

/-- The density Cluster records (src/unnamed/part_002 lines 64-76): the k-th
cluster created consumed uuid + k, its record was created at seed time with
`dayDate` from the seed point's takenAt and `radius` from the options.  The
seed is the first member pushed and expansion only appends, so the seed is
recovered here as the head of the member-index list. -/
def densityClusters (dist : Dist) (uuid : ℕ) (assets : List MediaAsset)
    (radius : ℚ) (minPoints : ℤ) : List Cluster :=
  (dbscanClusters dist assets radius minPoints).enum.map fun p =>
    { id := uuid + p.1,
      dayDate := getDateString
        ((assets.filter isGeotagged).getD (p.2.headD 0) default).takenAt,
      centroidLat := 0, centroidLon := 0, label := none,
      assets := p.2.map fun k => (assets.filter isGeotagged).getD k default,
      radius := radius }

/-- The noise assets (src/unnamed/part_002 lines 108-114): geotagged points
never assigned to a cluster, in point order, followed by all non-geotagged
assets. -/
def allNoiseAssets (dist : Dist) (assets : List MediaAsset) (radius : ℚ)
    (minPoints : ℤ) : List MediaAsset :=
  ((List.range (assets.filter isGeotagged).length).filter
    fun k => !(assignedIn (dbscanClusters dist assets radius minPoints) [] k)).map
    (fun k => (assets.filter isGeotagged).getD k default) ++
  assets.filter fun a => !(isGeotagged a)

/-- The trailing noise cluster (src/unnamed/part_002 lines 116-126), present
when there is at least one noise asset: labelled 'Scattered Locations' when
some noise asset has a latitude, else 'No GPS'; radius 0; dayDate from the
first noise asset. -/
def trailingCluster (dist : Dist) (uuid : ℕ) (assets : List MediaAsset)
    (radius : ℚ) (minPoints : ℤ) : List Cluster :=
  if 0 < (allNoiseAssets dist assets radius minPoints).length then
    [{ id := uuid + (dbscanClusters dist assets radius minPoints).length,
       dayDate := getDateString
         ((allNoiseAssets dist assets radius minPoints).headD default).takenAt,
       centroidLat := 0, centroidLon := 0,
       label := some (if (allNoiseAssets dist assets radius minPoints).any
                        (fun a => a.lat.isSome)
                      then .scattered else .noGPS),
       assets := allNoiseAssets dist assets radius minPoints, radius := 0 }]
  else []

/-- clusterByLocation (src/unnamed/part_002 lines 18-138).  `uuid` is the
next fresh cluster id; each created cluster consumes one (density clusters in
creation order, then the trailing noise cluster).  With no geotagged assets,
at most one 'No GPS' cluster holding everything is returned; otherwise the
density clusters and the trailing noise cluster get their centroids computed
(arithmetic mean over geotagged members) and are sorted by descending member
count.  Array.prototype.sort is a stable sort and a stable sort under a fixed
comparator has a unique result, so it is modelled by stable insertion
sort. -/
def clusterByLocation (dist : Dist) (uuid : ℕ) (assets : List MediaAsset)
    (radius : ℚ) (minPoints : ℤ) : List Cluster :=
  if (assets.filter isGeotagged).length = 0 then
    if 0 < (assets.filter fun a => !(isGeotagged a)).length then
      [{ id := uuid,
         dayDate := getDateString
           ((assets.filter fun a => !(isGeotagged a)).headD default).takenAt,
         centroidLat := 0, centroidLon := 0, label := some .noGPS,
         assets := assets.filter fun a => !(isGeotagged a), radius := 0 }]
    else []
  else
    (((densityClusters dist uuid assets radius minPoints ++
       trailingCluster dist uuid assets radius minPoints).map
        computeCentroid).insertionSort
      fun a b => b.assets.length ≤ a.assets.length)

/-! ## Cluster merge (claim C7)

mergeClusters, src/unnamed/part_002 lines 175-216. -/

/-- Distance between the centroids of two clusters, as getDistance is called
in mergeClusters (cluster1 first). -/
def clusterDist (dist : Dist) (c1 c2 : Cluster) : ℚ :=
  dist (c1.centroidLat, c1.centroidLon) (c2.centroidLat, c2.centroidLon)

/-- The merge condition of the inner double loop (src/unnamed/part_002 lines
187-194): the pair is skipped when either centroid *latitude* is 0
(`cluster1.centroidLat === 0 || cluster2.centroidLat === 0`), and merged when
the centroid distance is at most maxMergeDistance. -/
def mergeGuard (dist : Dist) (maxMergeDistance : ℚ) (c1 c2 : Cluster) : Bool :=
  !(c1.centroidLat == 0) && !(c2.centroidLat == 0) &&
    decide (clusterDist dist c1 c2 ≤ maxMergeDistance)

/-- The first index pair (i, j), i < j, in lexicographic scan order whose
clusters satisfy the merge condition — the pair at which the double loop
breaks out and restarts the pass. -/
def findMergePair (dist : Dist) (maxMergeDistance : ℚ) (merged : List Cluster) :
    Option (ℕ × ℕ) :=
  (List.range merged.length).findSome? fun i =>
    (List.range' (i + 1) (merged.length - (i + 1))).findSome? fun j =>
      if mergeGuard dist maxMergeDistance (merged.getD i default) (merged.getD j default)
      then some (i, j) else none

/-- One merge (src/unnamed/part_002 lines 195-206): cluster2's assets are
pushed onto cluster1's, cluster1's centroid is recomputed as the mean over
the combined geotagged assets (when any exist), and cluster2 is spliced
out. -/
def applyMerge (l : List Cluster) (i j : ℕ) : List Cluster :=
  let c1 := l.getD i default
  let c2 := l.getD j default
  let combined := c1.assets ++ c2.assets
  let geo := combined.filter isGeotagged
  let c1' :=
    if 0 < geo.length then
      { c1 with
        assets := combined
        centroidLat := (geo.map fun a => a.lat.getD 0).sum / (geo.length : ℚ)
        centroidLon := (geo.map fun a => a.lon.getD 0).sum / (geo.length : ℚ) }
    else { c1 with assets := combined }
  (l.set i c1').eraseIdx j

/-- The while(changed) loop of mergeClusters (src/unnamed/part_002 lines
179-213): repeatedly merge the first qualifying pair and restart the scan;
stop when a full pass finds none.  Terminates because each merge removes one
cluster. -/
def mergeLoop (dist : Dist) (maxMergeDistance : ℚ) (l : List Cluster) :
    List Cluster :=
  match h : findMergePair dist maxMergeDistance l with
  | some (i, j) => mergeLoop dist maxMergeDistance (applyMerge l i j)
  | none => l
termination_by l.length
decreasing_by
  have hlt : i < j ∧ j < l.length := by
    unfold findMergePair at h
    obtain ⟨a, ha, hsome⟩ := List.exists_of_findSome?_eq_some h
    obtain ⟨b, hb, hsome2⟩ := List.exists_of_findSome?_eq_some hsome
    rw [List.mem_range'_1] at hb
    split at hsome2
    · cases hsome2
      omega
    · cases hsome2
  obtain ⟨h1, h2⟩ := hlt
  unfold applyMerge
  simp only
  rw [List.length_eraseIdx_of_lt (by simpa using h2)]
  simp only [List.length_set]
  omega

/-- mergeClusters (src/unnamed/part_002 lines 175-216): run the merge loop,
then sort descending by member count. -/
def mergeClusters (dist : Dist) (clusters : List Cluster)
    (maxMergeDistance : ℚ) : List Cluster :=
  (mergeLoop dist maxMergeDistance clusters).insertionSort
    fun a b => b.assets.length ≤ a.assets.length

/-! ## Day grouping and day-group creation (claims C1, C4)

groupAssetsByDay and createDayGroups, src/unnamed/part_004 lines 282-335. -/

/-- Insertion of one asset into the day map (a JS Map keyed by the formatted
date, modelled as an association list in key-insertion order). -/
def addToDay (m : List (ℤ × List MediaAsset)) (d : ℤ) (a : MediaAsset) :
    List (ℤ × List MediaAsset) :=
  if ∃ p ∈ m, p.1 = d then
    m.map fun p => if p.1 = d then (p.1, p.2 ++ [a]) else p
  else m ++ [(d, [a])]

/-- groupAssetsByDay (src/unnamed/part_004 lines 282-296): buckets the assets
by `dayjs(asset.takenAt).format('YYYY-MM-DD')`, the local calendar day. -/
def groupAssetsByDay (off : ℤ) (assets : List MediaAsset) :
    List (ℤ × List MediaAsset) :=
  assets.foldl (fun m a => addToDay m (localDateString off a.takenAt) a) []

/-- A day group (src/src/types/index.ts, DayGroup).  The city label is
irrelevant to every claim and omitted. -/
structure DayGroupR where
  date : ℤ
  clusters : List Cluster
  totalAssets : ℕ
deriving DecidableEq, Repr

/-- createDayGroups (src/unnamed/part_004 lines 298-335): cluster each day's
assets with the default options (radius 300, minPoints 2), record
totalAssets := assets.length, and sort the groups by descending date.  The
uuid counter advances by the number of clusters created for each day. -/
def createDayGroups (dist : Dist) (uuid : ℕ)
    (assetsByDay : List (ℤ × List MediaAsset)) : List DayGroupR × ℕ :=
  let r := assetsByDay.foldl (fun acc p =>
    let clusters := clusterByLocation dist acc.2 p.2 DEFAULT_RADIUS DEFAULT_MIN_POINTS
    (acc.1 ++ [⟨p.1, clusters, p.2.length⟩], acc.2 + clusters.length)) ([], uuid)
  (r.1.insertionSort (fun a b => b.date ≤ a.date), r.2)

/-! ## The persistent store (claims C1, C2)

The SQLite tables of the database service (src/unnamed/part_003), restricted
to the columns the claims read. -/

/-- A media_assets row.  `hidden INTEGER DEFAULT 0`. -/
structure AssetRow where
  aid : ℕ
  takenAt : ℤ
  lat : Option ℚ
  lon : Option ℚ
  clusterId : Option ℕ
  hidden : Bool
deriving DecidableEq, Repr

/-- A clusters row. -/
structure ClusterRow where
  id : ℕ
  dayDate : ℤ
  centroidLat : ℚ
  centroidLon : ℚ
  radius : ℚ
  assetCount : ℕ
deriving DecidableEq, Repr

/-- A day_groups row. -/
structure DayRow where
  date : ℤ
  totalAssets : ℕ
deriving DecidableEq, Repr

/-- The database state. -/
structure DB where
  mediaAssets : List AssetRow
  clusters : List ClusterRow
  dayGroups : List DayRow
deriving DecidableEq, Repr

/-- JS `x || null`: a coordinate equal to 0 is falsy and stored as NULL
(insertMediaAsset, src/unnamed/part_003 lines 124-139). -/
def orNull (o : Option ℚ) : Option ℚ :=
  match o with
  | some x => if x = 0 then none else some x
  | none => none

/-- insertMediaAsset (src/unnamed/part_003 lines 117-140): INSERT OR REPLACE
keyed by id.  The column list does not include `hidden`, so the replaced row
gets the column default 0.  `cid` is the asset's clusterId field (set by
storeAssetsWithClusters, absent on freshly scanned assets). -/
def insertMediaAsset (db : DB) (a : MediaAsset) (cid : Option ℕ) : DB :=
  { db with mediaAssets :=
      (db.mediaAssets.filter fun r => r.aid != a.id) ++
        [⟨a.id, a.takenAt, orNull a.lat, orNull a.lon, cid, false⟩] }

/-- insertCluster (src/unnamed/part_003 lines 154-183): INSERT OR REPLACE the
cluster row with asset_count := cluster.assets.length, then set cluster_id on
every member asset row (when the member list is nonempty). -/
def insertCluster (db : DB) (c : Cluster) : DB :=
  let row : ClusterRow :=
    ⟨c.id, c.dayDate, c.centroidLat, c.centroidLon, c.radius, c.assets.length⟩
  let withRow := (db.clusters.filter fun r => r.id != c.id) ++ [row]
  let memberIds := c.assets.map fun a => a.id
  let assets2 :=
    if 0 < c.assets.length then
      db.mediaAssets.map fun r =>
        if memberIds.contains r.aid then { r with clusterId := some c.id } else r
    else db.mediaAssets
  { db with mediaAssets := assets2, clusters := withRow }

/-- insertDayGroup (src/unnamed/part_003 lines 207-219): INSERT OR REPLACE
keyed by date. -/
def insertDayGroup (db : DB) (g : DayGroupR) : DB :=
  { db with dayGroups :=
      (db.dayGroups.filter fun r => r.date != g.date) ++ [⟨g.date, g.totalAssets⟩] }

/-- clearAllClusterAssignments (src/unnamed/part_003 lines 583-591): null out
every cluster_id and drop all cluster rows. -/
def clearAllClusterAssignments (db : DB) : DB :=
  { db with
    mediaAssets := db.mediaAssets.map fun r => { r with clusterId := none },
    clusters := [] }

/-- storeAssetsInDatabase (src/unnamed/part_004 lines 248-252): upsert each
scanned asset (no clusterId on freshly converted assets). -/
def storeAssetsInDatabase (db : DB) (assets : List MediaAsset) : DB :=
  assets.foldl (fun d a => insertMediaAsset d a none) db

/-- storeAssetsWithClusters (src/unnamed/part_004 lines 254-280): for each
nonempty cluster, upsert each member with clusterId := cluster.id. -/
def storeAssetsWithClusters (db : DB) (clusters : List Cluster) : DB :=
  clusters.foldl (fun d c =>
    if c.assets.length = 0 then d
    else c.assets.foldl (fun d2 a => insertMediaAsset d2 a (some c.id)) d) db

/-- storeDayGroups (src/unnamed/part_004 lines 337-350): for each day group,
insert the day row, store the member assets with their cluster ids, then
insert each cluster row. -/
def storeDayGroups (db : DB) (gs : List DayGroupR) : DB :=
  gs.foldl (fun d g =>
    let d1 := insertDayGroup d g
    let d2 := storeAssetsWithClusters d1 g.clusters
    g.clusters.foldl insertCluster d2) db

/-! ## The consistency repair pass (claim C2)

repairClusterAssetRelationships, src/unnamed/part_003 lines 529-581 (the
identical function also appears in src/src/services/database.ts lines
413-465). -/

/-- The asset query of one repair iteration (src/unnamed/part_003 lines
539-553): geotagged rows whose SQLite localtime day equals the cluster's
day_date and whose lat and lon each lie within radius/111320 degrees of the
centroid (a BETWEEN box using the cluster's own radius). -/
def repairMatches (off : ℤ) (db : DB) (c : ClusterRow) : List AssetRow :=
  let radiusDegrees := c.radius / 111320
  db.mediaAssets.filter fun r =>
    r.lat.isSome && r.lon.isSome &&
    (localDateString off r.takenAt == c.dayDate) &&
    decide (c.centroidLat - radiusDegrees ≤ r.lat.getD 0) &&
    decide (r.lat.getD 0 ≤ c.centroidLat + radiusDegrees) &&
    decide (c.centroidLon - radiusDegrees ≤ r.lon.getD 0) &&
    decide (r.lon.getD 0 ≤ c.centroidLon + radiusDegrees)

/-- One repair iteration (src/unnamed/part_003 lines 537-575): when the query
matches at least one asset, set cluster_id on the matched rows and rewrite
the cluster's asset_count to the number matched; otherwise the cluster is
left untouched. -/
def repairOneCluster (off : ℤ) (db : DB) (c : ClusterRow) : DB :=
  let ms := repairMatches off db c
  if 0 < ms.length then
    let ids := ms.map fun r => r.aid
    { db with
      mediaAssets := db.mediaAssets.map fun r =>
        if ids.contains r.aid then { r with clusterId := some c.id } else r,
      clusters := db.clusters.map fun r =>
        if r.id == c.id then { r with assetCount := ms.length } else r }
  else db

/-- repairClusterAssetRelationships (src/unnamed/part_003 lines 529-581):
iterate the repair step over a snapshot of the cluster rows taken before the
loop. -/
def repairClusterAssetRelationships (off : ℤ) (db : DB) : DB :=
  db.clusters.foldl (repairOneCluster off) db

/-- Modelled from the spec (comparand for claim C2, which describes a
fallback radius that the repair code does not use): the spec's membership
re-derivation — items matching the cluster's day key whose coordinate lies
within a great-circle distance of max(2 × radius, 1000) meters of the
centroid. -/
def specFallbackMatches (dist : Dist) (off : ℤ) (db : DB) (c : ClusterRow) :
    List AssetRow :=
  let fallbackRadius := max (2 * c.radius) 1000
  db.mediaAssets.filter fun r =>
    r.lat.isSome && r.lon.isSome &&
    (localDateString off r.takenAt == c.dayDate) &&
    decide (dist (c.centroidLat, c.centroidLon) (r.lat.getD 0, r.lon.getD 0) ≤ fallbackRadius)

/-! ## The batched full scan (claim C1)

performFullScan with its background continuation, src/unnamed/part_004 lines
14-195.  Batch k of the media source is the slice
library.drop(k·batchSize).take(batchSize) (scanMediaLibraryPaginated,
src/src/services/mediaLibrary.ts lines 281-328).  Progress reporting is
modelled separately (claim C6). -/

/-- One organization pass over `assets`: group by local day, create day
groups (consuming uuids), store them.  Returns the updated database and uuid
counter. -/
def organizePass (dist : Dist) (off : ℤ) (db : DB) (uuid : ℕ)
    (assets : List MediaAsset) : DB × ℕ :=
  let r := createDayGroups dist uuid (groupAssetsByDay off assets)
  (storeDayGroups db r.1, r.2)

/-- The background continuation (continueBackgroundProcessing,
src/unnamed/part_004 lines 139-195): for each remaining batch, store its
assets and re-organize the full accumulated set; then one final organization
pass. -/
def continueBackgroundProcessing (dist : Dist) (off : ℤ)
    (library : List MediaAsset) (batchSize : ℕ) (totalBatches : ℕ)
    (startIdx : ℕ) (allAssets : List MediaAsset) (db : DB) (uuid : ℕ) :
    DB × ℕ :=
  let stepped := (List.range (totalBatches - startIdx)).foldl
    (fun acc k =>
      let batch := (library.drop ((startIdx + k) * batchSize)).take batchSize
      let all2 := acc.2.1 ++ batch
      if 0 < batch.length then
        let d2 := storeAssetsInDatabase acc.1 batch
        let r := organizePass dist off d2 acc.2.2 all2
        (r.1, all2, r.2)
      else (acc.1, all2, acc.2.2))
    (db, allAssets, uuid)
  let r := organizePass dist off stepped.1 stepped.2.2 stepped.2.1
  (r.1, r.2)

/-- performFullScan (src/unnamed/part_004 lines 14-118): clear all cluster
assignments, process batch 0 (store assets; if nonempty, organize it and, when
more batches exist, hand off to the background continuation), otherwise run
the remaining batches in the foreground and finish with a final organization
pass over everything (skipped when nothing was found). -/
def performFullScan (dist : Dist) (off : ℤ) (library : List MediaAsset)
    (batchSize : ℕ) (db0 : DB) (uuid : ℕ) : DB :=
  let db1 := clearAllClusterAssignments db0
  let totalBatches := (library.length + batchSize - 1) / batchSize
  if totalBatches = 0 then db1
  else
    let batch0 := library.take batchSize
    let db2 := storeAssetsInDatabase db1 batch0
    if 0 < batch0.length then
      let r1 := organizePass dist off db2 uuid batch0
      if 1 < totalBatches then
        (continueBackgroundProcessing dist off library batchSize totalBatches 1
          batch0 r1.1 r1.2).1
      else
        -- the loop ends after batch 0; the final pass re-organizes the same
        -- accumulated set with fresh cluster ids
        (organizePass dist off r1.1 r1.2 batch0).1
    else
      -- batch 0 produced nothing: the remaining batches run in the
      -- foreground with no per-batch organization, then one final pass
      let stepped := (List.range (totalBatches - 1)).foldl
        (fun acc k =>
          let batch := (library.drop ((1 + k) * batchSize)).take batchSize
          (storeAssetsInDatabase acc.1 batch, acc.2 ++ batch))
        (db2, batch0)
      if stepped.2.length = 0 then stepped.1
      else (organizePass dist off stepped.1 uuid stepped.2).1

/-! ## Full-scan progress events (claim C6)

The onProgress percentages emitted by performFullScan and its background
continuation (src/unnamed/part_004 lines 14-195), in emission order.
`batchLen k` is the number of per-item fetch callbacks of batch k
(scanMediaLibraryPaginated emits (i+1, total) for each processed item,
src/src/services/mediaLibrary.ts lines 308-311). -/

/-- `batchStartProgress = 10 + (batchIndex / totalBatches) * 60`. -/
def batchStartProgress (totalBatches batchIndex : ℕ) : ℚ :=
  10 + ((batchIndex : ℚ) / (totalBatches : ℚ)) * 60

/-- `batchEndProgress = 10 + ((batchIndex + 1) / totalBatches) * 60`. -/
def batchEndProgress (totalBatches batchIndex : ℕ) : ℚ :=
  10 + (((batchIndex : ℚ) + 1) / (totalBatches : ℚ)) * 60

/-- Events of one foreground batch (src/unnamed/part_004 lines 43-58): the
batch-start marker, then one event per fetched item at
`start + ((processed/total)·100)/100 · (end − start)`. -/
def foregroundBatchEvents (totalBatches batchIndex len : ℕ) : List ℚ :=
  batchStartProgress totalBatches batchIndex ::
    (List.range len).map fun (k : ℕ) =>
      batchStartProgress totalBatches batchIndex +
        ((((k : ℚ) + 1) / (len : ℚ) * 100) / 100) *
          (batchEndProgress totalBatches batchIndex -
            batchStartProgress totalBatches batchIndex)

/-- Events of one background batch (src/unnamed/part_004 lines 150-162): the
batch-start marker, then `batchStartProgress + 2` for every fetched item. -/
def backgroundBatchEvents (totalBatches batchIndex len : ℕ) : List ℚ :=
  batchStartProgress totalBatches batchIndex ::
    List.replicate len (batchStartProgress totalBatches batchIndex + 2)

/-- The full onProgress percentage sequence of one performFullScan run
(src/unnamed/part_004 lines 14-195).  After the fixed prologue 0, 2, 5, 10:
with no batches the scan reports 100 and stops; otherwise batch 0 runs in the
foreground.  When batch 0 yields assets, the 'first batch complete' event
repeats batchEndProgress, and either the background continuation processes
the remaining batches (ending 75, 100) or, for a single batch, the final
passes report 75, 85, 95, 100.  When batch 0 yields nothing, the remaining
batches run in the foreground with no per-day organization and the run ends
with 100 (nothing found) or 75, 85, 95, 100. -/
def fullScanProgress (totalCount batchSize : ℕ) (batchLen : ℕ → ℕ) : List ℚ :=
  let totalBatches := (totalCount + batchSize - 1) / batchSize
  [0, 2, 5, 10] ++
  (if totalBatches = 0 then [100]
   else
    foregroundBatchEvents totalBatches 0 (batchLen 0) ++
    (if 0 < batchLen 0 then
      batchEndProgress totalBatches 0 ::
      (if 1 < totalBatches then
        ((List.range (totalBatches - 1)).flatMap fun k =>
          backgroundBatchEvents totalBatches (k + 1) (batchLen (k + 1))) ++
          [75, 100]
       else [75, 85, 95, 100])
     else
      ((List.range (totalBatches - 1)).flatMap fun k =>
        foregroundBatchEvents totalBatches (k + 1) (batchLen (k + 1))) ++
        (if (List.range totalBatches).all (fun k => batchLen k = 0)
         then [100] else [75, 85, 95, 100])))

/-! ## Concrete distance functions for witnesses and counterexamples

The source calls geolib's getDistance; the claims are settled for arbitrary
distance functions, and the closed witness statements instantiate them with
concrete computable ones. -/

/-- The constant-zero distance function. -/
def distZero : Dist := fun _ _ => 0

/-- A taxicab distance scaled by geolib's meters-per-degree constant; on
pairs that differ only in one coordinate it agrees with the meridian
great-circle distance the repository approximates with 1° ≈ 111320 m. -/
def distL1 : Dist := fun p q => 111320 * (|p.1 - q.1| + |p.2 - q.2|)

/-- A distance function reading distances directly off the latitude
difference (second argument minus first), used to realize prescribed
pairwise distances. -/
def distLatDiff : Dist := fun p q => q.1 - p.1

/-! # Claim theorems -/

/-! ## Claim C5 — scan mutual exclusion -/

/-- Claim C5, counterexample: an incremental-scan call made while a scan is
active returns silently instead of failing with a scan-already-running
error, and a full-scan call made while a batched scan's background phase is
active (batchProcessing set, isProcessing clear) starts instead of failing.
-/
theorem incrementalScan_silent_skip :
    (performIncrementalScanGuard ⟨true, false⟩).1 = ScanCallResult.skippedSilently ∧
    (performFullScanGuard ⟨false, true⟩).1 = ScanCallResult.started := by
  decide

/-- Claim C5 (amended): re-entrant performFullScan and performBatchedScan
calls fail fast with a scan-already-running error while isProcessing is set
(performBatchedScan also while batchProcessing is set), but a
performIncrementalScan call made while isProcessing is set silently returns
without scanning and without error, and performFullScan is not guarded
against an active batched-scan background phase: it starts whenever
isProcessing is clear, even with batchProcessing set. -/
theorem scanGuards_amended (s : ScanFlags) :
    (s.isProcessing = true →
      (performFullScanGuard s).1 = ScanCallResult.rejected ∧
      (performBatchedScanGuard s).1 = ScanCallResult.rejected ∧
      performIncrementalScanGuard s =
        (ScanCallResult.skippedSilently, s)) ∧
    (s.batchProcessing = true →
      (performBatchedScanGuard s).1 = ScanCallResult.rejected) ∧
    (s.isProcessing = false →
      performFullScanGuard s = (ScanCallResult.started, ⟨true, s.batchProcessing⟩)) := by
  rcases s with ⟨ip, bp⟩
  cases ip <;> cases bp <;> decide

/-- Witness for scanGuards_amended at the all-flags-set state. -/
theorem scanGuards_amended_witness :
    (performFullScanGuard ⟨true, true⟩).1 = ScanCallResult.rejected ∧
    (performBatchedScanGuard ⟨true, true⟩).1 = ScanCallResult.rejected ∧
    performIncrementalScanGuard ⟨true, true⟩ = (ScanCallResult.skippedSilently, ⟨true, true⟩) :=
  (scanGuards_amended ⟨true, true⟩).1 rfl

/-! ## Claim C3 — optimal radius estimator -/

/-- Claim C3, counterexample: an input with exactly two geotagged items has a
single pairwise distance, the lower half `slice(0, floor(1/2))` is empty, and
`Math.max(100, Math.min(1000, lowerHalf[0]))` is NaN rather than a number in
[100, 1000] — modelled as the absent result `none`. -/
theorem calculateOptimalRadius_two_items_nan :
    2 ≤ (([⟨0, 0, some 1, some 1⟩, ⟨1, 0, some 2, some 2⟩] :
        List MediaAsset).filter isGeotagged).length ∧
    calculateOptimalRadius distL1
      [⟨0, 0, some 1, some 1⟩, ⟨1, 0, some 2, some 2⟩] = none := by
  constructor
  · decide
  · decide

/-- Helper: with at least two geotagged items, calculateOptimalRadius is the
clamped middle element of the lower half of the sorted pairwise distances
(as an Option.map over the possibly-out-of-range index). -/
theorem calculateOptimalRadius_spec (dist : Dist) (assets : List MediaAsset)
    (h2 : ¬ (assets.filter isGeotagged).length < 2) :
    calculateOptimalRadius dist assets =
      (let distances := pairwiseDistances dist (assets.filter isGeotagged)
       let lowerHalf := (distances.insertionSort (· ≤ ·)).take (distances.length / 2)
       (lowerHalf.get? (lowerHalf.length / 2)).map fun m => max 100 (min 1000 m)) := by
  simp only [calculateOptimalRadius, if_neg h2]
  set lowerHalf := ((pairwiseDistances dist (assets.filter isGeotagged)).insertionSort
    (· ≤ ·)).take ((pairwiseDistances dist (assets.filter isGeotagged)).length / 2)
  cases hx : lowerHalf.get? (lowerHalf.length / 2) <;> simp [hx]

/-- Claim C3 (amended): calculateOptimalRadius returns 300 when the input
has fewer than 2 geotagged items; with at least 3 geotagged items it returns
the clamped lower-half median, which lies in [100, 1000]; with exactly 2
geotagged items the lower half is empty and the computation produces no
number (NaN, modelled as none — see the counterexample); and for three
geotagged items with pairwise distances 100, 200, 300 meters the estimate is
100. -/
theorem calculateOptimalRadius_amended :
    (∀ (dist : Dist) (assets : List MediaAsset),
      (assets.filter isGeotagged).length < 2 →
      calculateOptimalRadius dist assets = some 300) ∧
    (∀ (dist : Dist) (assets : List MediaAsset),
      3 ≤ (assets.filter isGeotagged).length →
      ∃ m, calculateOptimalRadius dist assets = some m ∧ 100 ≤ m ∧ m ≤ 1000) ∧
    calculateOptimalRadius distLatDiff
      [⟨0, 0, some 0, some 0⟩, ⟨1, 0, some 100, some 0⟩, ⟨2, 0, some 300, some 0⟩]
      = some 100 := by
  refine ⟨?_, ?_, by
    norm_num [calculateOptimalRadius, pairwiseDistances, distLatDiff, isGeotagged,
      coordOf, List.insertionSort, List.orderedInsert, List.range_succ,
      Function.comp]⟩
  · intro dist assets h
    simp [calculateOptimalRadius, h, DEFAULT_RADIUS]
  · intro dist assets h
    have h2 : ¬ (assets.filter isGeotagged).length < 2 := by omega
    set geo := assets.filter isGeotagged with hgeo
    have hlen : 2 ≤ (pairwiseDistances dist geo).length := by
      obtain ⟨g, hg⟩ : ∃ g, geo.length = g + 3 := ⟨geo.length - 3, by omega⟩
      unfold pairwiseDistances
      rw [hg]
      have hr : List.range (g + 3) = 0 :: (List.range (g + 2)).map Nat.succ :=
        List.range_succ_eq_map (g + 2)
      rw [hr, List.flatMap_cons]
      simp only [List.length_append, List.length_map, List.length_drop,
        List.length_range, List.drop_succ_cons, List.drop_zero, List.length_cons]
      omega
    set distances := pairwiseDistances dist geo with hd
    have hsortlen : (distances.insertionSort (· ≤ ·)).length = distances.length :=
      (List.perm_insertionSort _ _).length_eq
    have hlhlen : ((distances.insertionSort (· ≤ ·)).take (distances.length / 2)).length
        = distances.length / 2 := by
      rw [List.length_take, hsortlen]
      omega
    have hidx : ((distances.insertionSort (· ≤ ·)).take (distances.length / 2)).length / 2
        < ((distances.insertionSort (· ≤ ·)).take (distances.length / 2)).length := by
      rw [hlhlen]
      omega
    have hsome := List.get?_eq_get hidx
    rw [calculateOptimalRadius_spec dist assets h2]
    simp only [← hgeo, ← hd, hsome, Option.map_some]
    exact ⟨_, rfl, le_max_left _ _, max_le (by norm_num) (min_le_left _ _)⟩

/-- Witness for calculateOptimalRadius_amended: its bounds clause applied to
a concrete three-item input. -/
theorem calculateOptimalRadius_amended_witness :
    3 ≤ (([⟨0, 0, some 1, some 1⟩, ⟨1, 0, some 2, some 2⟩, ⟨2, 0, some 4, some 4⟩] :
        List MediaAsset).filter isGeotagged).length ∧
    ∃ m, calculateOptimalRadius distL1
      [⟨0, 0, some 1, some 1⟩, ⟨1, 0, some 2, some 2⟩, ⟨2, 0, some 4, some 4⟩] = some m ∧
      100 ≤ m ∧ m ≤ 1000 :=
  ⟨by decide, calculateOptimalRadius_amended.2.1 distL1 _ (by decide)⟩

/-! ## Claim C8 — single geotagged item -/

/-- Claim C8: a single geotagged item with minPts ≤ 1 forms its own
one-member cluster: clusterByLocation on that item returns exactly one
cluster whose member list is exactly that item.  (With minPoints ≤ 0 it is a
density cluster; with minPoints = 1 the item's neighborhood is empty, it is
left as noise, and the trailing cluster holds exactly the item — either way
the output is one one-member cluster.) -/
theorem clusterByLocation_singleton (dist : Dist) (uuid : ℕ) (radius : ℚ)
    (minPoints : ℤ) (a : MediaAsset) (hlat : a.lat.isSome = true)
    (hlon : a.lon.isSome = true) (hm : minPoints ≤ 1) :
    (clusterByLocation dist uuid [a] radius minPoints).map (fun c => c.assets)
      = [[a]] := by
  have hg : isGeotagged a = true := by simp [isGeotagged, hlat, hlon]
  have hnb : getNeighbors dist [a] radius 0 = [] := by
    simp [getNeighbors]
  by_cases hpos : (0 : ℤ) < minPoints
  · simp [clusterByLocation, densityClusters, trailingCluster, allNoiseAssets,
      dbscanClusters, hg, runDBSCAN, outerStep, hnb, hpos, assignedIn,
      computeCentroid, List.insertionSort, List.orderedInsert, List.range_succ]
  · simp [clusterByLocation, densityClusters, trailingCluster, allNoiseAssets,
      dbscanClusters, hg, runDBSCAN, outerStep, hnb, hpos, assignedIn,
      computeCentroid, List.insertionSort, List.orderedInsert, List.range_succ,
      expand]

/-- Witness for clusterByLocation_singleton at a concrete geotagged asset
with minPoints = 1. -/
theorem clusterByLocation_singleton_witness :
    (⟨0, 0, some 1, some 2⟩ : MediaAsset).lat.isSome = true ∧
    (⟨0, 0, some 1, some 2⟩ : MediaAsset).lon.isSome = true ∧
    (1 : ℤ) ≤ 1 ∧
    (clusterByLocation distZero 0 [⟨0, 0, some 1, some 2⟩] 300 1).map
      (fun c => c.assets) = [[⟨0, 0, some 1, some 2⟩]] :=
  ⟨by decide, by decide, by decide,
    clusterByLocation_singleton distZero 0 300 1 _ (by decide) (by decide) (by decide)⟩

/-! ## Claim C9 — clusterByLocation partitions its input

Infrastructure: invariants of the expansion loop and the outer DBSCAN loop.
The key facts are that cluster membership never duplicates an index (a point
is pushed only when it carries no clusterId) and that every index ends up
either in exactly one cluster or in the noise list. -/

/-- Neighbor indices are in range. -/
theorem getNeighbors_lt {dist : Dist} {pts : List MediaAsset} {radius : ℚ}
    {i j : ℕ} (h : j ∈ getNeighbors dist pts radius i) : j < pts.length := by
  unfold getNeighbors at h
  have := List.mem_filter.mp h
  simpa using this.1

/-- Elements appended by enqueueExtra come from the neighbor list. -/
theorem enqueueExtra_sub {pts : List MediaAsset} {full nn : List ℕ} {j : ℕ}
    (h : j ∈ enqueueExtra pts full nn) : j ∈ nn := by
  unfold enqueueExtra at h
  suffices H : ∀ (acc : List ℕ), j ∈ nn.foldl (fun acc j =>
      if (full ++ acc).any (fun m => (pts.getD m default).id == (pts.getD j default).id)
      then acc else acc ++ [j]) acc → j ∈ acc ∨ j ∈ nn by
    rcases H [] h with h' | h'
    · simp at h'
    · exact h'
  clear h
  induction nn with
  | nil => intro acc h; exact Or.inl h
  | cons x xs ih =>
    intro acc h
    simp only [List.foldl_cons] at h
    rcases ih _ h with h' | h'
    · split at h'
      · exact Or.inl h'
      · rcases List.mem_append.mp h' with h'' | h''
        · exact Or.inl h''
        · simp at h''
          subst h''
          exact Or.inr (List.mem_cons_self _ _)
    · exact Or.inr (List.mem_cons_of_mem _ h')

/-- Elements appended on a visit are in range. -/
theorem visitExtra_lt {dist : Dist} {pts : List MediaAsset} {radius : ℚ}
    {minPoints : ℤ} {done : List ℕ} {cur : ℕ} {rest : List ℕ} {j : ℕ}
    (h : j ∈ visitExtra dist pts radius minPoints done cur rest) :
    j < pts.length := by
  simp only [visitExtra] at h
  split at h
  · exact getNeighbors_lt (enqueueExtra_sub h)
  · simp at h

/-- assignedIn decides membership in the clusters built so far plus the
current one. -/
theorem assignedIn_iff {prev : List (List ℕ)} {curC : List ℕ} {j : ℕ} :
    assignedIn prev curC j = true ↔ j ∈ prev.flatten ++ curC := by
  simp [assignedIn, List.mem_flatten, or_comm]

/-- Invariant preservation through the expansion loop: if assigned indices
are visited and mutually distinct, the expansion keeps them so; the current
cluster only grows (its existing prefix is preserved), all its members are in
range, and no new unvisited indices appear. -/
theorem expand_spec (dist : Dist) (pts : List MediaAsset) (radius : ℚ)
    (minPoints : ℤ) (prev : List (List ℕ)) :
    ∀ (unvisited curC done pending : List ℕ),
    unvisited.Nodup →
    (∀ j ∈ prev.flatten ++ curC, j ∉ unvisited) →
    (prev.flatten ++ curC).Nodup →
    (∀ j ∈ pending, j < pts.length) →
    (∀ j ∈ curC, j < pts.length) →
    ((expand dist pts radius minPoints prev unvisited curC done pending).1.Nodup ∧
     (∀ j ∈ prev.flatten ++ (expand dist pts radius minPoints prev unvisited curC done pending).2,
        j ∉ (expand dist pts radius minPoints prev unvisited curC done pending).1) ∧
     (prev.flatten ++ (expand dist pts radius minPoints prev unvisited curC done pending).2).Nodup ∧
     (∀ j ∈ (expand dist pts radius minPoints prev unvisited curC done pending).2,
        j < pts.length) ∧
     curC <+: (expand dist pts radius minPoints prev unvisited curC done pending).2 ∧
     (∀ j ∈ (expand dist pts radius minPoints prev unvisited curC done pending).1,
        j ∈ unvisited)) := by
  intro unvisited curC done pending
  induction unvisited, curC, done, pending using expand.induct dist pts radius minPoints prev with
  | case1 unvisited curC done =>
    intro h1 h2 h3 h4 h5
    rw [expand]
    exact ⟨h1, h2, h3, h5, List.prefix_refl _, fun j hj => hj⟩
  | case2 unvisited curC done cur rest hv ih =>
    intro h1 h2 h3 h4 h5
    rw [expand]
    simp only [dif_pos hv]
    have hcur_lt : cur < pts.length := h4 cur (List.mem_cons_self _ _)
    have hcur_notflat : ∀ hna : assignedIn prev curC cur = false,
        cur ∉ prev.flatten ++ curC := by
      intro hna hmem
      have := assignedIn_iff.mpr hmem
      rw [hna] at this
      cases this
    have hM1 : (unvisited.erase cur).Nodup := h1.erase cur
    have hM2 : ∀ j ∈ prev.flatten ++ maybeAssign prev curC cur,
        j ∉ unvisited.erase cur := by
      intro j hj hj2
      have hj3 : j ∈ unvisited := List.mem_of_mem_erase hj2
      unfold maybeAssign at hj
      split at hj
      · exact h2 j hj hj3
      · rcases List.mem_append.mp hj with hj' | hj'
        · exact h2 j (List.mem_append_left _ hj') hj3
        · rcases List.mem_append.mp hj' with hj'' | hj''
          · exact h2 j (List.mem_append_right _ hj'') hj3
          · simp at hj''
            subst hj''
            exact (List.Nodup.not_mem_erase h1) hj2
    have hM3 : (prev.flatten ++ maybeAssign prev curC cur).Nodup := by
      unfold maybeAssign
      split
      · exact h3
      · rename_i hna
        rw [← List.append_assoc]
        rw [List.nodup_append]
        refine ⟨h3, List.nodup_singleton _, ?_⟩
        intro x hx
        simp only [List.mem_singleton]
        intro hx2
        subst hx2
        exact (hcur_notflat (by simpa using hna)) hx
    have hM4 : ∀ j ∈ rest ++ visitExtra dist pts radius minPoints done cur rest,
        j < pts.length := by
      intro j hj
      rcases List.mem_append.mp hj with hj' | hj'
      · exact h4 j (List.mem_cons_of_mem _ hj')
      · exact visitExtra_lt hj'
    have hM5 : ∀ j ∈ maybeAssign prev curC cur, j < pts.length := by
      intro j hj
      unfold maybeAssign at hj
      split at hj
      · exact h5 j hj
      · rcases List.mem_append.mp hj with hj' | hj'
        · exact h5 j hj'
        · simp at hj'
          subst hj'
          exact hcur_lt
    obtain ⟨c1, c2, c3, c4, c5, c6⟩ := ih hM1 hM2 hM3 hM4 hM5
    refine ⟨c1, c2, c3, c4, ?_, ?_⟩
    · refine List.IsPrefix.trans ?_ c5
      unfold maybeAssign
      split
      · exact List.prefix_refl _
      · exact ⟨[cur], rfl⟩
    · intro j hj
      exact List.mem_of_mem_erase (c6 j hj)
  | case3 unvisited curC done cur rest hv ih =>
    intro h1 h2 h3 h4 h5
    rw [expand]
    simp only [dif_neg hv]
    have hcur_lt : cur < pts.length := h4 cur (List.mem_cons_self _ _)
    have hcur_notflat : ∀ hna : assignedIn prev curC cur = false,
        cur ∉ prev.flatten ++ curC := by
      intro hna hmem
      have := assignedIn_iff.mpr hmem
      rw [hna] at this
      cases this
    have hM2 : ∀ j ∈ prev.flatten ++ maybeAssign prev curC cur, j ∉ unvisited := by
      intro j hj hj2
      unfold maybeAssign at hj
      split at hj
      · exact h2 j hj hj2
      · rcases List.mem_append.mp hj with hj' | hj'
        · exact h2 j (List.mem_append_left _ hj') hj2
        · rcases List.mem_append.mp hj' with hj'' | hj''
          · exact h2 j (List.mem_append_right _ hj'') hj2
          · simp at hj''
            subst hj''
            exact hv hj2
    have hM3 : (prev.flatten ++ maybeAssign prev curC cur).Nodup := by
      unfold maybeAssign
      split
      · exact h3
      · rename_i hna
        rw [← List.append_assoc]
        rw [List.nodup_append]
        refine ⟨h3, List.nodup_singleton _, ?_⟩
        intro x hx
        simp only [List.mem_singleton]
        intro hx2
        subst hx2
        exact (hcur_notflat (by simpa using hna)) hx
    have hM4 : ∀ j ∈ rest, j < pts.length :=
      fun j hj => h4 j (List.mem_cons_of_mem _ hj)
    have hM5 : ∀ j ∈ maybeAssign prev curC cur, j < pts.length := by
      intro j hj
      unfold maybeAssign at hj
      split at hj
      · exact h5 j hj
      · rcases List.mem_append.mp hj with hj' | hj'
        · exact h5 j hj'
        · simp at hj'
          subst hj'
          exact hcur_lt
    obtain ⟨c1, c2, c3, c4, c5, c6⟩ := ih h1 hM2 hM3 hM4 hM5
    refine ⟨c1, c2, c3, c4, ?_, c6⟩
    refine List.IsPrefix.trans ?_ c5
    unfold maybeAssign
    split
    · exact List.prefix_refl _
    · exact ⟨[cur], rfl⟩

/-- Invariants of the outer DBSCAN loop, established by folding outerStep
over any in-range index list: the unvisited list stays duplicate-free,
cluster members are pairwise distinct in-range indices disjoint from the
unvisited list, and every cluster is nonempty. -/
theorem foldl_outerStep_inv (dist : Dist) (pts : List MediaAsset) (radius : ℚ)
    (minPoints : ℤ) :
    ∀ (l : List ℕ) (st : DBScanState), (∀ i ∈ l, i < pts.length) →
    st.unvisited.Nodup →
    st.clusters.flatten.Nodup →
    (∀ j ∈ st.clusters.flatten, j < pts.length) →
    (∀ j ∈ st.clusters.flatten, j ∉ st.unvisited) →
    (∀ c ∈ st.clusters, c ≠ []) →
    ((l.foldl (outerStep dist pts radius minPoints) st).unvisited.Nodup ∧
     (l.foldl (outerStep dist pts radius minPoints) st).clusters.flatten.Nodup ∧
     (∀ j ∈ (l.foldl (outerStep dist pts radius minPoints) st).clusters.flatten,
        j < pts.length) ∧
     (∀ j ∈ (l.foldl (outerStep dist pts radius minPoints) st).clusters.flatten,
        j ∉ (l.foldl (outerStep dist pts radius minPoints) st).unvisited) ∧
     (∀ c ∈ (l.foldl (outerStep dist pts radius minPoints) st).clusters, c ≠ [])) := by
  intro l
  induction l with
  | nil =>
    intro st _ h1 h2 h3 h4 h5
    exact ⟨h1, h2, h3, h4, h5⟩
  | cons i l ih =>
    intro st hl h1 h2 h3 h4 h5
    rw [List.foldl_cons]
    have hi : i < pts.length := hl i (List.mem_cons_self _ _)
    have hl' : ∀ x ∈ l, x < pts.length := fun x hx => hl x (List.mem_cons_of_mem _ hx)
    refine ih _ hl' ?_ ?_ ?_ ?_ ?_ <;> clear ih
    all_goals {
      simp only [outerStep]
      split
      case isFalse => first
        | exact h1 | exact h2 | exact h3 | exact h4 | exact h5
      case isTrue hc =>
        have hiu : i ∈ st.unvisited := by simpa using hc
        have hifl : i ∉ st.clusters.flatten := fun hmem => h4 i hmem hiu
        split
        case isTrue hmin => first
          | exact h1.erase i
          | exact h2
          | exact h3
          | exact fun j hj hj2 => h4 j hj (List.mem_of_mem_erase hj2)
          | exact h5
        case isFalse hmin =>
          obtain ⟨c1, c2, c3, c4, c5, c6⟩ :=
            expand_spec dist pts radius minPoints st.clusters
              (st.unvisited.erase i) [i] []
              (getNeighbors dist pts radius i)
              (h1.erase i)
              (by
                intro j hj hj2
                rcases List.mem_append.mp hj with hj' | hj'
                · exact h4 j hj' (List.mem_of_mem_erase hj2)
                · simp at hj'
                  subst hj'
                  exact (List.Nodup.not_mem_erase h1) hj2)
              (by
                rw [List.nodup_append]
                refine ⟨h2, List.nodup_singleton _, ?_⟩
                intro x hx
                simp only [List.mem_singleton]
                intro hx2
                subst hx2
                exact hifl hx)
              (fun j hj => getNeighbors_lt hj)
              (by
                intro j hj
                simp at hj
                subst hj
                exact hi)
          first
            | exact c1
            | {
                simp only [List.flatten_append, List.flatten_cons,
                  List.flatten_nil, List.append_nil]
                first
                  | exact c3
                  | { intro j hj
                      rcases List.mem_append.mp hj with hj' | hj'
                      · exact h3 j hj'
                      · exact c4 j hj' }
                  | exact c2
              }
            | { intro c hcmem
                rcases List.mem_append.mp hcmem with hc' | hc'
                · exact h5 c hc'
                · simp at hc'
                  subst hc'
                  intro hcnil
                  rw [hcnil] at c5
                  have := c5.length_le
                  simp at this }
      }

/-- Reading every index of a list back yields the list. -/
theorem map_getD_range {α : Type} [Inhabited α] (l : List α) :
    (List.range l.length).map (fun k => l.getD k default) = l := by
  apply List.ext_getElem
  · simp
  · intro i h1 h2
    simp only [List.getElem_map, List.getElem_range, List.getD_eq_getElem?_getD,
      List.getElem?_eq_getElem h2, Option.getD_some]

/-- The centroid pass does not change a cluster's member list. -/
theorem computeCentroid_assets (c : Cluster) :
    (computeCentroid c).assets = c.assets := by
  simp only [computeCentroid]
  split <;> rfl

/-- The centroid pass does not change a cluster's day key. -/
theorem computeCentroid_dayDate (c : Cluster) :
    (computeCentroid c).dayDate = c.dayDate := by
  simp only [computeCentroid]
  split <;> rfl

/-- Partition property of clusterByLocation, shared between later
developments: the member lists of the returned clusters concatenate to a
permutation of the input, and every returned cluster is nonempty. -/
theorem clusterByLocation_partition_core (dist : Dist) (uuid : ℕ)
    (assets : List MediaAsset) (radius : ℚ) (minPoints : ℤ) :
    List.Perm ((clusterByLocation dist uuid assets radius minPoints).flatMap
      (fun c => c.assets)) assets ∧
    ∀ c ∈ clusterByLocation dist uuid assets radius minPoints, c.assets ≠ [] := by
  have hsplit : List.Perm
      (assets.filter isGeotagged ++ assets.filter (fun a => !(isGeotagged a)))
      assets := List.filter_append_perm _ _
  by_cases hz : (assets.filter isGeotagged).length = 0
  · have hgeonil : assets.filter isGeotagged = [] := List.length_eq_zero.mp hz
    by_cases hnz : 0 < (assets.filter (fun a => !(isGeotagged a))).length
    · have hres : clusterByLocation dist uuid assets radius minPoints =
          [{ id := uuid,
             dayDate := getDateString
               ((assets.filter (fun a => !(isGeotagged a))).headD default).takenAt,
             centroidLat := 0, centroidLon := 0, label := some .noGPS,
             assets := assets.filter (fun a => !(isGeotagged a)), radius := 0 }] := by
        simp only [clusterByLocation, if_pos hz, if_pos hnz]
      rw [hres]
      constructor
      · simpa [hgeonil] using hsplit
      · intro c hc
        simp only [List.mem_singleton] at hc
        subst hc
        simpa using List.length_pos.mp hnz
    · have hres : clusterByLocation dist uuid assets radius minPoints = [] := by
        simp only [clusterByLocation, if_pos hz, if_neg hnz]
      have hanil : assets = [] := by
        have h0 : (assets.filter (fun a => !(isGeotagged a))).length = 0 := by omega
        have := hsplit.length_eq
        simp only [List.length_append, hz, h0] at this
        exact List.length_eq_zero.mp this.symm
      rw [hres, hanil]
      exact ⟨List.Perm.refl _, by simp⟩
  · -- main branch
    have hres : clusterByLocation dist uuid assets radius minPoints =
        (((densityClusters dist uuid assets radius minPoints ++
           trailingCluster dist uuid assets radius minPoints).map
            computeCentroid).insertionSort
          fun a b => b.assets.length ≤ a.assets.length) := by
      simp only [clusterByLocation, if_neg hz]
    obtain ⟨hnd, hflnd, hflb, hflunv, hcne⟩ := by
      refine foldl_outerStep_inv dist (assets.filter isGeotagged) radius minPoints
        (List.range (assets.filter isGeotagged).length)
        ⟨List.range (assets.filter isGeotagged).length, []⟩
        (fun i hi => List.mem_range.mp hi) (List.nodup_range _) ?_ ?_ ?_ ?_ <;>
        simp
    have hflnd2 : (dbscanClusters dist assets radius minPoints).flatten.Nodup := hflnd
    have hflb2 : ∀ j ∈ (dbscanClusters dist assets radius minPoints).flatten,
        j < (assets.filter isGeotagged).length := hflb
    have hcne2 : ∀ c ∈ dbscanClusters dist assets radius minPoints, c ≠ [] := hcne
    clear hnd hflnd hflb hflunv hcne
    rw [hres]
    -- the flattened member lists, before sorting and centroids
    have hperm0 : List.Perm
        (((densityClusters dist uuid assets radius minPoints ++
           trailingCluster dist uuid assets radius minPoints).map
            computeCentroid).insertionSort
          (fun a b => b.assets.length ≤ a.assets.length))
        ((densityClusters dist uuid assets radius minPoints ++
          trailingCluster dist uuid assets radius minPoints).map computeCentroid) :=
      List.perm_insertionSort _ _
    have hflatMap : ∀ (L1 L2 : List Cluster), List.Perm L1 L2 →
        List.Perm (L1.flatMap fun c => c.assets) (L2.flatMap fun c => c.assets) :=
      fun L1 L2 h => h.flatMap_right _
    have hmapcc : ((densityClusters dist uuid assets radius minPoints ++
        trailingCluster dist uuid assets radius minPoints).map computeCentroid).flatMap
          (fun c => c.assets) =
        (densityClusters dist uuid assets radius minPoints ++
         trailingCluster dist uuid assets radius minPoints).flatMap
          (fun c => c.assets) := by
      rw [List.flatMap_map]
      exact List.flatMap_congr fun c _ => computeCentroid_assets c
    constructor
    · refine ((hflatMap _ _ hperm0).trans ?_)
      rw [hmapcc, List.flatMap_append]
      -- density part: map getD over the flattened index lists
      have hdens : (densityClusters dist uuid assets radius minPoints).flatMap
          (fun c => c.assets) =
          (dbscanClusters dist assets radius minPoints).flatten.map
            (fun k => (assets.filter isGeotagged).getD k default) := by
        simp only [densityClusters, List.flatMap_map, Function.comp_def]
        rw [List.flatMap_def]
        rw [show (fun p : ℕ × List ℕ =>
            p.2.map fun k => (assets.filter isGeotagged).getD k default) =
          (fun m : List ℕ => m.map fun k => (assets.filter isGeotagged).getD k default)
            ∘ Prod.snd from rfl]
        rw [← List.map_map, List.enum_map_snd, ← List.map_flatten]
      -- trailing part contributes exactly the noise assets
      have htrail : (trailingCluster dist uuid assets radius minPoints).flatMap
          (fun c => c.assets) = allNoiseAssets dist assets radius minPoints := by
        unfold trailingCluster
        split
        · simp
        · rename_i hlen
          simp only [List.flatMap_nil]
          have : (allNoiseAssets dist assets radius minPoints).length = 0 := by omega
          exact (List.length_eq_zero.mp this).symm
      rw [hdens, htrail]
      unfold allNoiseAssets
      rw [← List.append_assoc]
      refine List.Perm.trans (List.Perm.append ?_ (List.Perm.refl _)) hsplit
      -- map getD over (assigned ++ unassigned) indices ~ geotagged
      have hFsub : ∀ j ∈ (dbscanClusters dist assets radius minPoints).flatten,
          j ∈ List.range (assets.filter isGeotagged).length :=
        fun j hj => List.mem_range.mpr (hflb2 j hj)
      have hassign : ∀ k, assignedIn (dbscanClusters dist assets radius minPoints) [] k
          = true ↔ k ∈ (dbscanClusters dist assets radius minPoints).flatten := by
        intro k
        rw [assignedIn_iff]
        simp
      have hpermIdx : List.Perm
          ((dbscanClusters dist assets radius minPoints).flatten ++
           ((List.range (assets.filter isGeotagged).length).filter
             fun k => !(assignedIn (dbscanClusters dist assets radius minPoints) [] k)))
          (List.range (assets.filter isGeotagged).length) := by
        have h1 : List.Perm
            ((List.range (assets.filter isGeotagged).length).filter
              fun k => assignedIn (dbscanClusters dist assets radius minPoints) [] k)
            (dbscanClusters dist assets radius minPoints).flatten := by
          rw [List.perm_ext_iff_of_nodup (List.Nodup.filter _ (List.nodup_range _)) hflnd2]
          intro a
          rw [List.mem_filter]
          constructor
          · intro ⟨_, h2⟩
            exact (hassign a).mp h2
          · intro h2
            exact ⟨hFsub a h2, (hassign a).mpr h2⟩
        refine List.Perm.trans (List.Perm.append h1.symm (List.Perm.refl _)) ?_
        exact List.filter_append_perm _ _
      have := hpermIdx.map fun k => (assets.filter isGeotagged).getD k default
      rw [List.map_append] at this
      refine this.trans ?_
      rw [map_getD_range]
    · intro c hc
      have hc2 := hperm0.mem_iff.mp hc
      rw [List.mem_map] at hc2
      obtain ⟨c0, hc0, rfl⟩ := hc2
      rw [computeCentroid_assets]
      rcases List.mem_append.mp hc0 with hcd | hct
      · unfold densityClusters at hcd
        rw [List.mem_map] at hcd
        obtain ⟨p, hp, rfl⟩ := hcd
        simp only
        intro hnil
        rw [List.map_eq_nil_iff] at hnil
        have hpmem : p.2 ∈ (dbscanClusters dist assets radius minPoints) := by
          have h2 : Prod.snd p ∈ (dbscanClusters dist assets radius
              minPoints).enum.map Prod.snd := List.mem_map_of_mem Prod.snd hp
          rw [List.enum_map_snd] at h2
          exact h2
        exact hcne2 p.2 hpmem hnil
      · unfold trailingCluster at hct
        split at hct
        · rename_i hlen
          simp only [List.mem_singleton] at hct
          subst hct
          simp only
          intro hnil
          rw [hnil] at hlen
          simp at hlen
        · simp at hct

/-- Claim C9: for every input and options, the member lists of the returned
clusters form a partition of the input, up to reordering: their concatenation
is a permutation of the input list (no item duplicated or dropped), and every
returned cluster is nonempty. -/
theorem clusterByLocation_partition (dist : Dist) (uuid : ℕ)
    (assets : List MediaAsset) (radius : ℚ) (minPoints : ℤ)
    (hm : 1 ≤ minPoints) :
    List.Perm ((clusterByLocation dist uuid assets radius minPoints).flatMap
      (fun c => c.assets)) assets ∧
    ∀ c ∈ clusterByLocation dist uuid assets radius minPoints, c.assets ≠ [] := by
  clear hm
  exact clusterByLocation_partition_core dist uuid assets radius minPoints

/-- Witness for clusterByLocation_partition at a concrete one-item input. -/
theorem clusterByLocation_partition_witness :
    (1 : ℤ) ≤ 1 ∧
    (List.Perm ((clusterByLocation distZero 0 [⟨0, 0, some 1, some 2⟩] 300 1).flatMap
      fun c => c.assets) [⟨0, 0, some 1, some 2⟩] ∧
     ∀ c ∈ clusterByLocation distZero 0 [⟨0, 0, some 1, some 2⟩] 300 1,
       c.assets ≠ []) :=
  ⟨by decide, clusterByLocation_partition distZero 0 _ 300 1 (by decide)⟩

/-! ## Claim C4 — day keys -/

/-- Claim C4, counterexample: an item captured at epoch 84600000 ms
(23:30 UTC on day 0) on a device with UTC offset +60 minutes has local
calendar day 1, and groupAssetsByDay buckets it under day 1, but the cluster
clusterByLocation produces for it records dayDate 0 — the UTC day from
toISOString — not the local day. -/
theorem dayKey_not_local :
    localDateString 60 ((⟨0, 84600000, none, none⟩ : MediaAsset).takenAt) = 1 ∧
    groupAssetsByDay 60 [⟨0, 84600000, none, none⟩] =
      [(1, [⟨0, 84600000, none, none⟩])] ∧
    (clusterByLocation distZero 0 [⟨0, 84600000, none, none⟩] 300 2).map
      (fun c => c.dayDate) = [0] ∧
    (1 : ℤ) ≠ 0 := by
  refine ⟨by decide, by decide, by decide, by decide⟩

/-- The head of a nonempty list (with any fallback) is a member. -/
theorem headD_mem {α : Type} {l : List α} (h : l ≠ []) (d : α) : l.headD d ∈ l := by
  cases l with
  | nil => exact absurd rfl h
  | cons a t => exact List.mem_cons_self _ _

/-- Specification of groupAssetsByDay: every bucket holds exactly the assets
of its (local) day in input order, the day keys are pairwise distinct, and
every asset's day key has a bucket. -/
theorem groupAssetsByDay_spec (off : ℤ) (assets : List MediaAsset) :
    (∀ p ∈ groupAssetsByDay off assets,
      p.2 = assets.filter fun a => localDateString off a.takenAt == p.1) ∧
    ((groupAssetsByDay off assets).map Prod.fst).Nodup ∧
    (∀ a ∈ assets,
      localDateString off a.takenAt ∈ (groupAssetsByDay off assets).map Prod.fst) := by
  suffices H : ∀ (rest : List MediaAsset) (processed : List MediaAsset)
      (m : List (ℤ × List MediaAsset)),
      (∀ p ∈ m, p.2 = processed.filter fun a => localDateString off a.takenAt == p.1) →
      ((m.map Prod.fst).Nodup) →
      (∀ a ∈ processed, localDateString off a.takenAt ∈ m.map Prod.fst) →
      ((∀ p ∈ rest.foldl (fun m a => addToDay m (localDateString off a.takenAt) a) m,
        p.2 = (processed ++ rest).filter fun a => localDateString off a.takenAt == p.1) ∧
       (((rest.foldl (fun m a => addToDay m (localDateString off a.takenAt) a) m).map
          Prod.fst).Nodup) ∧
       (∀ a ∈ processed ++ rest, localDateString off a.takenAt ∈
         (rest.foldl (fun m a => addToDay m (localDateString off a.takenAt) a) m).map
           Prod.fst)) by
    have hfold := H assets [] [] (by simp) (by simp) (by simp)
    rw [List.nil_append] at hfold
    exact hfold
  intro rest
  induction rest with
  | nil =>
    intro processed m h1 h2 h3
    rw [List.foldl_nil, List.append_nil]
    exact ⟨h1, h2, h3⟩
  | cons x xs ih =>
    intro processed m h1 h2 h3
    rw [List.foldl_cons, show processed ++ x :: xs = (processed ++ [x]) ++ xs by simp]
    have hfst : ∀ q : ℤ × List MediaAsset,
        (if q.1 = localDateString off x.takenAt
         then (q.1, q.2 ++ [x]) else q).1 = q.1 := by
      intro q
      split <;> rfl
    apply ih (processed ++ [x])
    · -- buckets of addToDay
      intro p hp
      unfold addToDay at hp
      split at hp
      case isTrue hany =>
        rw [List.mem_map] at hp
        obtain ⟨q, hq, hqe⟩ := hp
        by_cases hkey : q.1 = localDateString off x.takenAt
        · rw [if_pos hkey] at hqe
          subst hqe
          simp only
          rw [List.filter_append, h1 q hq]
          simp only [List.filter_cons, List.filter_nil]
          rw [show (localDateString off x.takenAt == q.1) = true by
            rw [beq_iff_eq]; omega]
          simp
        · rw [if_neg hkey] at hqe
          subst hqe
          rw [List.filter_append, h1 q hq]
          simp only [List.filter_cons, List.filter_nil]
          rw [show (localDateString off x.takenAt == q.1) = false by
            rw [beq_eq_false_iff_ne]; omega]
          simp
      case isFalse hany =>
        push_neg at hany
        rcases List.mem_append.mp hp with hq | hq
        · rw [List.filter_append, h1 p hq]
          simp only [List.filter_cons, List.filter_nil]
          rw [show (localDateString off x.takenAt == p.1) = false by
            rw [beq_eq_false_iff_ne]
            have := hany p hq
            omega]
          simp
        · simp only [List.mem_singleton] at hq
          subst hq
          simp only
          rw [List.filter_append]
          have hnone : processed.filter
              (fun a => localDateString off a.takenAt == localDateString off x.takenAt)
              = [] := by
            rw [List.filter_eq_nil_iff]
            intro a ha hbeq
            rw [beq_iff_eq] at hbeq
            have hcov := h3 a ha
            rw [hbeq] at hcov
            rw [List.mem_map] at hcov
            obtain ⟨q, hq, hqe⟩ := hcov
            exact (hany q hq) hqe
          rw [hnone]
          simp
    · -- keys stay distinct
      unfold addToDay
      split
      case isTrue hany =>
        have hkeys : (List.map Prod.fst (m.map fun p =>
            if p.1 = localDateString off x.takenAt
            then (p.1, p.2 ++ [x]) else p)) = m.map Prod.fst := by
          rw [List.map_map]
          apply List.map_congr_left
          intro p _
          exact hfst p
        rw [hkeys]
        exact h2
      case isFalse hany =>
        push_neg at hany
        rw [List.map_append]
        rw [List.nodup_append]
        refine ⟨h2, List.nodup_singleton _, ?_⟩
        intro d hd
        simp only [List.map_cons, List.map_nil, List.mem_singleton]
        intro hde
        subst hde
        rw [List.mem_map] at hd
        obtain ⟨q, hq, hqe⟩ := hd
        exact (hany q hq) hqe
    · -- coverage
      intro a ha
      have hmem : ∀ d ∈ m.map Prod.fst,
          d ∈ (addToDay m (localDateString off x.takenAt) x).map Prod.fst := by
        intro d hd
        unfold addToDay
        split
        case isTrue hany =>
          rw [List.map_map]
          rw [List.mem_map] at hd ⊢
          obtain ⟨q, hq, hqe⟩ := hd
          exact ⟨q, hq, by rw [Function.comp_apply, hfst q]; exact hqe⟩
        case isFalse hany =>
          rw [List.map_append, List.mem_append]
          exact Or.inl hd
      rcases List.mem_append.mp ha with ha' | ha'
      · exact hmem _ (h3 a ha')
      · simp only [List.mem_singleton] at ha'
        subst ha'
        unfold addToDay
        split
        case isTrue hany =>
          obtain ⟨q, hq, hqe⟩ := hany
          rw [List.map_map, List.mem_map]
          refine ⟨q, hq, ?_⟩
          rw [Function.comp_apply, hfst q]
          omega
        case isFalse hany =>
          rw [List.map_append, List.mem_append]
          right
          simp

/-- The DBSCAN invariants in terms of dbscanClusters: member indices are
pairwise distinct and in range, and every cluster is nonempty. -/
theorem dbscanClusters_inv (dist : Dist) (assets : List MediaAsset)
    (radius : ℚ) (minPoints : ℤ) :
    (dbscanClusters dist assets radius minPoints).flatten.Nodup ∧
    (∀ j ∈ (dbscanClusters dist assets radius minPoints).flatten,
      j < (assets.filter isGeotagged).length) ∧
    (∀ c ∈ dbscanClusters dist assets radius minPoints, c ≠ []) := by
  obtain ⟨hnd, hflnd, hflb, hflunv, hcne⟩ := by
    refine foldl_outerStep_inv dist (assets.filter isGeotagged) radius minPoints
      (List.range (assets.filter isGeotagged).length)
      ⟨List.range (assets.filter isGeotagged).length, []⟩
      (fun i hi => List.mem_range.mp hi) (List.nodup_range _) ?_ ?_ ?_ ?_ <;>
      simp
  exact ⟨hflnd, hflb, hcne⟩

/-- Claim C4 (amended): the day key under which groupAssetsByDay buckets an
item is the local calendar date of its capture timestamp, but the dayKey
recorded on a cluster produced by clusterByLocation is the UTC calendar date
(toISOString) of one of its members' timestamps — the two disagree for
members whose local and UTC calendar days differ (see the counterexample).
-/
theorem dayKey_amended :
    (∀ (off : ℤ) (assets : List MediaAsset) (p : ℤ × List MediaAsset),
      p ∈ groupAssetsByDay off assets →
        ∀ a ∈ p.2, localDateString off a.takenAt = p.1) ∧
    (∀ (dist : Dist) (uuid : ℕ) (assets : List MediaAsset) (radius : ℚ)
      (minPoints : ℤ), ∀ c ∈ clusterByLocation dist uuid assets radius minPoints,
        ∃ a ∈ c.assets, c.dayDate = getDateString a.takenAt) := by
  constructor
  · intro off assets p hp a ha
    obtain ⟨h1, _, _⟩ := groupAssetsByDay_spec off assets
    rw [h1 p hp] at ha
    have hbeq := List.of_mem_filter ha
    rw [beq_iff_eq] at hbeq
    exact hbeq
  · intro dist uuid assets radius minPoints c hc
    by_cases hz : (assets.filter isGeotagged).length = 0
    · simp only [clusterByLocation, if_pos hz] at hc
      split at hc
      · rename_i hnz
        simp only [List.mem_singleton] at hc
        subst hc
        refine ⟨(assets.filter fun a => !(isGeotagged a)).headD default, ?_, rfl⟩
        refine headD_mem ?_ default
        intro hnil
        have hnil2 : (assets.filter fun a => !(isGeotagged a)) = [] := hnil
        rw [hnil2] at hnz
        simp at hnz
      · simp at hc
    · simp only [clusterByLocation, if_neg hz] at hc
      have hc2 := (List.perm_insertionSort _ _).mem_iff.mp hc
      rw [List.mem_map] at hc2
      obtain ⟨c0, hc0, rfl⟩ := hc2
      rw [computeCentroid_assets, computeCentroid_dayDate]
      rcases List.mem_append.mp hc0 with hcd | hct
      · unfold densityClusters at hcd
        rw [List.mem_map] at hcd
        obtain ⟨p, hp, rfl⟩ := hcd
        have hpne : p.2 ≠ [] := by
          refine (dbscanClusters_inv dist assets radius minPoints).2.2 p.2 ?_
          have h2 : Prod.snd p ∈ (dbscanClusters dist assets radius
              minPoints).enum.map Prod.snd := List.mem_map_of_mem Prod.snd hp
          rw [List.enum_map_snd] at h2
          exact h2
        refine ⟨(assets.filter isGeotagged).getD (p.2.headD 0) default, ?_, rfl⟩
        exact List.mem_map_of_mem _ (headD_mem hpne 0)
      · unfold trailingCluster at hct
        split at hct
        · rename_i hlen
          simp only [List.mem_singleton] at hct
          subst hct
          refine ⟨(allNoiseAssets dist assets radius minPoints).headD default, ?_, rfl⟩
          refine headD_mem ?_ default
          intro hnil
          have hnil2 : allNoiseAssets dist assets radius minPoints = [] := hnil
          rw [hnil2] at hlen
          simp at hlen
        · simp at hct

/-- Witness for dayKey_amended at a concrete one-item input with zero
offset. -/
theorem dayKey_amended_witness :
    ((1, [⟨0, 86400000, none, none⟩]) ∈ groupAssetsByDay 0 [⟨0, 86400000, none, none⟩] ∧
      ∀ a ∈ [(⟨0, 86400000, none, none⟩ : MediaAsset)],
        localDateString 0 a.takenAt = 1) ∧
    ((⟨0, 86400000, none, none⟩ : MediaAsset) ∈
        [(⟨0, 86400000, none, none⟩ : MediaAsset)] ∧
      ∀ c ∈ clusterByLocation distZero 0 [⟨0, 86400000, none, none⟩] 300 2,
        ∃ a ∈ c.assets, c.dayDate = getDateString a.takenAt) :=
  ⟨⟨by decide, fun a ha => dayKey_amended.1 0 [⟨0, 86400000, none, none⟩]
      (1, [⟨0, 86400000, none, none⟩]) (by decide) a ha⟩,
   ⟨by decide, dayKey_amended.2 distZero 0 [⟨0, 86400000, none, none⟩] 300 2⟩⟩

/-! ## Claim C1 — per-day member-count accounting -/

/-- Claim C1, counterexample: a full scan over a library holding one item
(batchSize 500, so a single batch) stores the day's clusters twice — once
after the first batch and once in the final organization pass — under fresh
uuids 0 and 1; both rows persist, so the recorded member counts for the day
sum to 2 while only 1 non-hidden item has that day key. -/
theorem fullScan_duplicate_rows :
    (((performFullScan distZero 0 [⟨7, 0, none, none⟩] 500 ⟨[], [], []⟩ 0).clusters.filter
      fun r => r.dayDate == 0).map fun r => r.assetCount).sum = 2 ∧
    ((performFullScan distZero 0 [⟨7, 0, none, none⟩] 500 ⟨[], [], []⟩ 0).mediaAssets.filter
      fun r => !r.hidden && (localDateString 0 r.takenAt == 0)).length = 1 ∧
    ((performFullScan distZero 0 [⟨7, 0, none, none⟩] 500 ⟨[], [], []⟩ 0).clusters.map
      fun r => r.id) = [0, 1] := by
  refine ⟨by decide, by decide, by decide⟩

/-- Helper: every day group built by createDayGroups is, for some uuid
value, the bucket's day key together with the default-option clustering of
the bucket and its size. -/
theorem createDayGroups_mem (dist : Dist) (uuid : ℕ)
    (buckets : List (ℤ × List MediaAsset)) :
    ∀ g ∈ (createDayGroups dist uuid buckets).1,
      ∃ p ∈ buckets, ∃ u : ℕ,
        g = ⟨p.1, clusterByLocation dist u p.2 DEFAULT_RADIUS DEFAULT_MIN_POINTS,
             p.2.length⟩ := by
  intro g hg
  unfold createDayGroups at hg
  simp only at hg
  have hg2 := (List.perm_insertionSort _ _).mem_iff.mp hg
  clear hg
  suffices H : ∀ (bs : List (ℤ × List MediaAsset)) (acc : List DayGroupR × ℕ),
      g ∈ (bs.foldl (fun acc p =>
        let clusters := clusterByLocation dist acc.2 p.2 DEFAULT_RADIUS DEFAULT_MIN_POINTS
        (acc.1 ++ [⟨p.1, clusters, p.2.length⟩], acc.2 + clusters.length)) acc).1 →
      g ∈ acc.1 ∨ ∃ p ∈ bs, ∃ u : ℕ,
        g = ⟨p.1, clusterByLocation dist u p.2 DEFAULT_RADIUS DEFAULT_MIN_POINTS,
             p.2.length⟩ by
    rcases H buckets ([], uuid) hg2 with h | h
    · simp at h
    · exact h
  intro bs
  induction bs with
  | nil =>
    intro acc h
    exact Or.inl h
  | cons p rest ih =>
    intro acc h
    rw [List.foldl_cons] at h
    rcases ih _ h with h' | h'
    · simp only [List.mem_append, List.mem_singleton] at h'
      rcases h' with h'' | h''
      · exact Or.inl h''
      · exact Or.inr ⟨p, List.mem_cons_self _ _, acc.2, h''⟩
    · obtain ⟨q, hq, u, he⟩ := h'
      exact Or.inr ⟨q, List.mem_cons_of_mem _ hq, u, he⟩

/-- Claim C1 (amended): the stored member count of a cluster row is the
cluster's member-list length, and for every day group produced (and then
stored) by one organization pass of a scan, the sum of its clusters' member
counts equals the number of scanned items whose local day key is that group's
day; but the sum over all *persisted* cluster rows of a day double-counts
after a full scan, because each organization pass inserts rows under fresh
uuids and the rows of earlier passes are never deleted (see the
counterexample). -/
theorem fullScan_dayGroup_counts :
    (∀ (db : DB) (c : Cluster), ∃ row ∈ (insertCluster db c).clusters,
      row.id = c.id ∧ row.assetCount = c.assets.length) ∧
    (∀ (dist : Dist) (off : ℤ) (uuid : ℕ) (assets : List MediaAsset),
      ∀ g ∈ (createDayGroups dist uuid (groupAssetsByDay off assets)).1,
        (g.clusters.map fun c => c.assets.length).sum = g.totalAssets ∧
        g.totalAssets = (assets.filter fun a =>
          localDateString off a.takenAt == g.date).length) := by
  constructor
  · intro db c
    refine ⟨⟨c.id, c.dayDate, c.centroidLat, c.centroidLon, c.radius,
      c.assets.length⟩, ?_, rfl, rfl⟩
    show _ ∈ (db.clusters.filter fun r => r.id != c.id) ++ [_]
    exact List.mem_append_right _ (List.mem_singleton_self _)
  · intro dist off uuid assets g hg
    obtain ⟨p, hp, u, rfl⟩ := createDayGroups_mem dist uuid _ g hg
    constructor
    · have hperm := (clusterByLocation_partition_core dist u p.2 DEFAULT_RADIUS
        DEFAULT_MIN_POINTS).1
      have hlen := hperm.length_eq
      rw [List.length_flatMap] at hlen
      simpa using hlen
    · obtain ⟨h1, _, _⟩ := groupAssetsByDay_spec off assets
      show p.2.length = (assets.filter fun a =>
        localDateString off a.takenAt == p.1).length
      rw [h1 p hp]

/-- Witness for fullScan_dayGroup_counts at a concrete one-item scan. -/
theorem fullScan_dayGroup_counts_witness :
    (∃ row ∈ (insertCluster ⟨[], [], []⟩
        ⟨3, 0, 0, 0, none, [⟨0, 0, none, none⟩], 0⟩).clusters,
      row.id = 3 ∧ row.assetCount = 1) ∧
    ∀ g ∈ (createDayGroups distZero 0 (groupAssetsByDay 0 [⟨0, 0, none, none⟩])).1,
      (g.clusters.map fun c => c.assets.length).sum = g.totalAssets ∧
      g.totalAssets = ([(⟨0, 0, none, none⟩ : MediaAsset)].filter fun a =>
        localDateString 0 a.takenAt == g.date).length :=
  ⟨fullScan_dayGroup_counts.1 ⟨[], [], []⟩ ⟨3, 0, 0, 0, none, [⟨0, 0, none, none⟩], 0⟩,
   fullScan_dayGroup_counts.2 distZero 0 0 [⟨0, 0, none, none⟩]⟩

/-! ## Claim C7 — cluster merge -/

/-- A pair found by the merge scan is an in-bounds ordered pair whose
clusters satisfy the merge condition. -/
theorem findMergePair_some {dist : Dist} {maxd : ℚ} {l : List Cluster}
    {i j : ℕ} (h : findMergePair dist maxd l = some (i, j)) :
    i < j ∧ j < l.length ∧
    mergeGuard dist maxd (l.getD i default) (l.getD j default) = true := by
  unfold findMergePair at h
  obtain ⟨a, ha, hsome⟩ := List.exists_of_findSome?_eq_some h
  obtain ⟨b, hb, hsome2⟩ := List.exists_of_findSome?_eq_some hsome
  rw [List.mem_range'_1] at hb
  rw [List.mem_range] at ha
  split at hsome2
  · rename_i hguard
    rw [Option.some_inj, Prod.mk.injEq] at hsome2
    obtain ⟨rfl, rfl⟩ := hsome2
    exact ⟨by omega, by omega, hguard⟩
  · cases hsome2

/-- When the merge scan finds nothing, no ordered pair satisfies the merge
condition. -/
theorem findMergePair_none_pairwise {dist : Dist} {maxd : ℚ} {l : List Cluster}
    (h : findMergePair dist maxd l = none) :
    List.Pairwise (fun c1 c2 => ¬(mergeGuard dist maxd c1 c2 = true)) l := by
  rw [List.pairwise_iff_getElem]
  intro i j hi hj hij
  intro hguard
  unfold findMergePair at h
  rw [List.findSome?_eq_none_iff] at h
  have h1 := h i (List.mem_range.mpr hi)
  rw [List.findSome?_eq_none_iff] at h1
  have h2 := h1 j (by rw [List.mem_range'_1]; omega)
  rw [if_pos ?_] at h2
  · cases h2
  · rw [List.getD_eq_getElem l default hi, List.getD_eq_getElem l default hj]
    exact hguard

/-- Step equation of the merge loop. -/
theorem mergeLoop_step {dist : Dist} {maxd : ℚ} {l : List Cluster} {i j : ℕ}
    (h : findMergePair dist maxd l = some (i, j)) :
    mergeLoop dist maxd l = mergeLoop dist maxd (applyMerge l i j) := by
  rw [mergeLoop]
  split
  · rename_i i' j' h2
    rw [h2] at h
    rw [Option.some_inj] at h
    cases h
    rfl
  · rename_i h2
    rw [h2] at h
    cases h

/-- Exit equation of the merge loop. -/
theorem mergeLoop_none {dist : Dist} {maxd : ℚ} {l : List Cluster}
    (h : findMergePair dist maxd l = none) : mergeLoop dist maxd l = l := by
  rw [mergeLoop]
  split
  · rename_i i' j' h2
    rw [h2] at h
    cases h
  · rfl

/-- The merge loop terminates only when a full scan finds no mergeable
pair. -/
theorem mergeLoop_terminal (dist : Dist) (maxd : ℚ) :
    ∀ l, findMergePair dist maxd (mergeLoop dist maxd l) = none := by
  intro l
  induction l using mergeLoop.induct dist maxd with
  | case1 l i j hfind ih =>
    rw [mergeLoop_step hfind]
    exact ih
  | case2 l hfind =>
    rw [mergeLoop_none hfind]
    exact hfind

/-- The merge condition, spelled out. -/
theorem mergeGuard_iff {dist : Dist} {maxd : ℚ} {c1 c2 : Cluster} :
    mergeGuard dist maxd c1 c2 = true ↔
      c1.centroidLat ≠ 0 ∧ c2.centroidLat ≠ 0 ∧ clusterDist dist c1 c2 ≤ maxd := by
  simp [mergeGuard, and_assoc]

/-- Claim C7, counterexample: two clusters whose centroids (0, 1) and (0, 2)
are both different from the (0,0) sentinel and lie within maxMergeDistance
500 of each other (under the constant-zero distance function) are NOT
combined — mergeClusters returns both unchanged, because the merge scan
skips any cluster whose centroid *latitude* is 0
(`cluster1.centroidLat === 0 || cluster2.centroidLat === 0`), not just the
(0,0) sentinel. -/
theorem merge_skips_zero_latitude :
    (mergeClusters distZero
      [⟨0, 0, 0, 1, none, [⟨0, 0, some 0, some 1⟩], 300⟩,
       ⟨1, 0, 0, 2, none, [⟨1, 0, some 0, some 2⟩], 300⟩] 500).length = 2 ∧
    (((0 : ℚ), (1 : ℚ)) ≠ ((0 : ℚ), (0 : ℚ)) ∧
     ((0 : ℚ), (2 : ℚ)) ≠ ((0 : ℚ), (0 : ℚ))) ∧
    clusterDist distZero ⟨0, 0, 0, 1, none, [⟨0, 0, some 0, some 1⟩], 300⟩
      ⟨1, 0, 0, 2, none, [⟨1, 0, some 0, some 2⟩], 300⟩ ≤ 500 := by
  refine ⟨?_, by decide, by decide⟩
  have hnone : findMergePair distZero 500
      [⟨0, 0, 0, 1, none, [⟨0, 0, some 0, some 1⟩], 300⟩,
       ⟨1, 0, 0, 2, none, [⟨1, 0, some 0, some 2⟩], 300⟩] = none := by decide
  rw [mergeClusters, mergeLoop_none hnone]
  decide

/-- Overwriting index i and splicing out a later index j leaves the new
element readable at i. -/
theorem set_eraseIdx_getD {α : Type} [Inhabited α] {l : List α} {i j : ℕ}
    (c : α) (hij : i < j) (hj : j < l.length) :
    ((l.set i c).eraseIdx j).getD i default = c := by
  have hi : i < l.length := lt_trans hij hj
  have hlen : i < ((l.set i c).eraseIdx j).length := by
    rw [List.length_eraseIdx_of_lt (by simpa using hj), List.length_set]
    omega
  rw [List.getD_eq_getElem _ _ hlen]
  rw [List.getElem_eraseIdx_of_lt]
  · rw [List.getElem_set_self]
  · exact hij

/-- Claim C7 (amended): whenever the restarted scan of mergeClusters finds a
pair, the two clusters have *nonzero centroid latitudes* (the code's sentinel
test checks only the latitude, so a cluster centred at latitude 0 never
merges — see the counterexample) and centroid distance at most
maxMergeDistance; the merge replaces them by one cluster whose member list is
the concatenation of the two and whose centroid is recomputed as the
arithmetic mean over the combined cluster's geotagged members, after which
the pass restarts; and the loop stops exactly when no pair qualifies, so in
the output no two clusters both have nonzero centroid latitude and lie
within maxMergeDistance. -/
theorem merge_amended (dist : Dist) (maxd : ℚ) (l : List Cluster)
    (hsym : ∀ p q : ℚ × ℚ, dist p q = dist q p) :
    (∀ (m : List Cluster) (i j : ℕ), findMergePair dist maxd m = some (i, j) →
      i < j ∧ j < m.length ∧
      (m.getD i default).centroidLat ≠ 0 ∧
      (m.getD j default).centroidLat ≠ 0 ∧
      clusterDist dist (m.getD i default) (m.getD j default) ≤ maxd ∧
      (applyMerge m i j).length + 1 = m.length ∧
      ((applyMerge m i j).getD i default).assets =
        (m.getD i default).assets ++ (m.getD j default).assets ∧
      (0 < (((m.getD i default).assets ++ (m.getD j default).assets).filter
          isGeotagged).length →
        ((applyMerge m i j).getD i default).centroidLat =
          ((((m.getD i default).assets ++ (m.getD j default).assets).filter
            isGeotagged).map fun a => a.lat.getD 0).sum /
          (((((m.getD i default).assets ++ (m.getD j default).assets).filter
            isGeotagged)).length : ℚ) ∧
        ((applyMerge m i j).getD i default).centroidLon =
          ((((m.getD i default).assets ++ (m.getD j default).assets).filter
            isGeotagged).map fun a => a.lon.getD 0).sum /
          (((((m.getD i default).assets ++ (m.getD j default).assets).filter
            isGeotagged)).length : ℚ)) ∧
      mergeLoop dist maxd m = mergeLoop dist maxd (applyMerge m i j)) ∧
    List.Pairwise (fun c1 c2 =>
      ¬(c1.centroidLat ≠ 0 ∧ c2.centroidLat ≠ 0 ∧ clusterDist dist c1 c2 ≤ maxd))
      (mergeClusters dist l maxd) := by
  constructor
  · intro m i j h
    obtain ⟨hij, hj, hguard⟩ := findMergePair_some h
    obtain ⟨hg1, hg2, hg3⟩ := mergeGuard_iff.mp hguard
    obtain ⟨C, hCeq, hCassets, hCcent⟩ :
        ∃ C : Cluster, applyMerge m i j = (m.set i C).eraseIdx j ∧
          C.assets = (m.getD i default).assets ++ (m.getD j default).assets ∧
          (0 < (((m.getD i default).assets ++ (m.getD j default).assets).filter
              isGeotagged).length →
            C.centroidLat =
              ((((m.getD i default).assets ++ (m.getD j default).assets).filter
                isGeotagged).map fun a => a.lat.getD 0).sum /
              (((((m.getD i default).assets ++ (m.getD j default).assets).filter
                isGeotagged)).length : ℚ) ∧
            C.centroidLon =
              ((((m.getD i default).assets ++ (m.getD j default).assets).filter
                isGeotagged).map fun a => a.lon.getD 0).sum /
              (((((m.getD i default).assets ++ (m.getD j default).assets).filter
                isGeotagged)).length : ℚ)) := by
      refine ⟨_, rfl, ?_, ?_⟩
      · split <;> rfl
      · intro hpos
        rw [if_pos hpos]
        exact ⟨rfl, rfl⟩
    refine ⟨hij, hj, hg1, hg2, hg3, ?_, ?_, ?_, mergeLoop_step h⟩
    · rw [hCeq, List.length_eraseIdx_of_lt (by simpa using hj), List.length_set]
      omega
    · rw [hCeq, set_eraseIdx_getD C hij hj, hCassets]
    · intro hpos
      rw [hCeq, set_eraseIdx_getD C hij hj]
      exact hCcent hpos
  · have hpair := findMergePair_none_pairwise (mergeLoop_terminal dist maxd l)
    have hpair2 : List.Pairwise (fun c1 c2 =>
        ¬(c1.centroidLat ≠ 0 ∧ c2.centroidLat ≠ 0 ∧ clusterDist dist c1 c2 ≤ maxd))
        (mergeLoop dist maxd l) :=
      hpair.imp fun h12 h => h12 (mergeGuard_iff.mpr h)
    have hsymm : Symmetric (fun c1 c2 : Cluster =>
        ¬(c1.centroidLat ≠ 0 ∧ c2.centroidLat ≠ 0 ∧
          clusterDist dist c1 c2 ≤ maxd)) := by
      intro c1 c2 h12 h
      refine h12 ⟨h.2.1, h.1, ?_⟩
      rw [show clusterDist dist c1 c2 = clusterDist dist c2 c1 from hsym _ _]
      exact h.2.2
    exact ((List.perm_insertionSort _ _).pairwise_iff (fun h => hsymm h)).mpr hpair2

/-- Witness for merge_amended: the scan over two mergeable clusters at
latitudes 1 and 2 finds the pair (0, 1). -/
theorem merge_amended_witness :
    findMergePair distZero 500
      [⟨0, 0, 1, 0, none, [], 300⟩, ⟨1, 0, 2, 0, none, [], 300⟩] = some (0, 1) ∧
    (0 < 1 ∧ 1 < ([⟨0, 0, 1, 0, none, [], 300⟩,
        (⟨1, 0, 2, 0, none, [], 300⟩ : Cluster)]).length ∧
      (([⟨0, 0, 1, 0, none, [], 300⟩, (⟨1, 0, 2, 0, none, [], 300⟩ : Cluster)]).getD 0
        default).centroidLat ≠ 0 ∧ True) :=
  ⟨by decide,
    by
      have h := (merge_amended distZero 500 [] (fun _ _ => rfl)).1
        [⟨0, 0, 1, 0, none, [], 300⟩, ⟨1, 0, 2, 0, none, [], 300⟩] 0 1 (by decide)
      exact ⟨h.1, h.2.1, h.2.2.1, trivial⟩⟩

/-! ## Claim C2 — the repair pass -/

/-- Claim C2, counterexample: a cluster with radius 300 m and centroid
(10, 10), and a geotagged item of the same day lying 0.005° of latitude
(≈ 556.6 m, within the claimed fallback radius max(2·300, 1000) = 1000 m)
from the centroid.  The claim says repair() re-links the item; the code
instead queries a bounding box of half-width radius/111320 ≈ 0.0027° built
from the cluster's own radius, finds nothing, and leaves the database
entirely unchanged — the item's clusterRef stays null. -/
theorem repair_no_fallback_radius :
    repairClusterAssetRelationships 0
      ⟨[⟨1, 0, some (2001/200), some 10, none, false⟩], [⟨5, 0, 10, 10, 300, 1⟩], []⟩ =
      ⟨[⟨1, 0, some (2001/200), some 10, none, false⟩], [⟨5, 0, 10, 10, 300, 1⟩], []⟩ ∧
    (specFallbackMatches distL1 0
      ⟨[⟨1, 0, some (2001/200), some 10, none, false⟩], [⟨5, 0, 10, 10, 300, 1⟩], []⟩
      ⟨5, 0, 10, 10, 300, 1⟩).map (fun r => r.aid) = [1] ∧
    (⟨1, 0, some (2001/200), some 10, none, false⟩ : AssetRow).clusterId = none := by
  refine ⟨?_, ?_, by decide⟩
  · norm_num [repairClusterAssetRelationships, repairOneCluster, repairMatches,
      localDateString]
  · norm_num [specFallbackMatches, distL1, localDateString, List.filter_cons,
      List.filter_nil, abs_sub_comm, abs_le]
    rw [show |(1:ℚ)/200| = 1/200 from by norm_num]
    norm_num

/-- Claim C2 (amended): repair() iterates over a snapshot of the cluster
rows; for each cluster it selects the media rows with non-null coordinates
whose localtime day equals the cluster's dayKey and whose lat and lon each
lie within radius/111320 degrees of the centroid — a square bounding box
built from the cluster's *own* radius, not a widened fallback of
max(2×radius, 1000 m), and with no exclusion of hidden items; when at least
one row matches it sets clusterRef on the matched rows and rewrites the
stored member count to the number matched, and when nothing matches the
cluster and its count are left untouched. -/
theorem repair_amended (off : ℤ) (db : DB) (c : ClusterRow) :
    repairClusterAssetRelationships off db =
      db.clusters.foldl (repairOneCluster off) db ∧
    ((repairMatches off db c).length = 0 → repairOneCluster off db c = db) ∧
    (0 < (repairMatches off db c).length →
      (repairOneCluster off db c).mediaAssets = db.mediaAssets.map (fun r =>
        if ((repairMatches off db c).map fun r2 => r2.aid).contains r.aid
        then { r with clusterId := some c.id } else r) ∧
      (repairOneCluster off db c).clusters = db.clusters.map (fun r =>
        if r.id == c.id then { r with assetCount := (repairMatches off db c).length }
        else r)) ∧
    (∀ r : AssetRow, r ∈ repairMatches off db c ↔
      (r ∈ db.mediaAssets ∧ r.lat.isSome = true ∧ r.lon.isSome = true ∧
       localDateString off r.takenAt = c.dayDate ∧
       c.centroidLat - c.radius / 111320 ≤ r.lat.getD 0 ∧
       r.lat.getD 0 ≤ c.centroidLat + c.radius / 111320 ∧
       c.centroidLon - c.radius / 111320 ≤ r.lon.getD 0 ∧
       r.lon.getD 0 ≤ c.centroidLon + c.radius / 111320)) := by
  refine ⟨rfl, ?_, ?_, ?_⟩
  · intro h
    simp [repairOneCluster, h]
  · intro h
    constructor
    · simp only [repairOneCluster]
      rw [if_pos h]
    · simp only [repairOneCluster]
      rw [if_pos h]
  · intro r
    unfold repairMatches
    rw [List.mem_filter]
    simp only [Bool.and_eq_true, decide_eq_true_eq, beq_iff_eq]
    constructor
    · rintro ⟨hmem, ⟨⟨⟨⟨⟨⟨h1, h2⟩, h3⟩, h4⟩, h5⟩, h6⟩, h7⟩⟩
      exact ⟨hmem, h1, h2, h3, h4, h5, h6, h7⟩
    · rintro ⟨hmem, h1, h2, h3, h4, h5, h6, h7⟩
      exact ⟨hmem, ⟨⟨⟨⟨⟨⟨h1, h2⟩, h3⟩, h4⟩, h5⟩, h6⟩, h7⟩⟩

/-- Witness for repair_amended: a cluster whose bounding box (radius
111320 m, so one degree) catches a same-day asset half a degree away; the
matched row count is 1 and the update clauses apply. -/
theorem repair_amended_witness :
    0 < (repairMatches 0
      ⟨[⟨1, 0, some (21/2), some 10, none, false⟩], [⟨5, 0, 10, 10, 111320, 0⟩], []⟩
      ⟨5, 0, 10, 10, 111320, 0⟩).length ∧
    ((repairOneCluster 0
      ⟨[⟨1, 0, some (21/2), some 10, none, false⟩], [⟨5, 0, 10, 10, 111320, 0⟩], []⟩
      ⟨5, 0, 10, 10, 111320, 0⟩).mediaAssets =
      [⟨1, 0, some (21/2), some 10, none, false⟩].map (fun r =>
        if ((repairMatches 0
          ⟨[⟨1, 0, some (21/2), some 10, none, false⟩], [⟨5, 0, 10, 10, 111320, 0⟩], []⟩
          ⟨5, 0, 10, 10, 111320, 0⟩).map fun r2 => r2.aid).contains r.aid
        then { r with clusterId := some 5 } else r) ∧
     (repairOneCluster 0
      ⟨[⟨1, 0, some (21/2), some 10, none, false⟩], [⟨5, 0, 10, 10, 111320, 0⟩], []⟩
      ⟨5, 0, 10, 10, 111320, 0⟩).clusters =
      [⟨5, 0, 10, 10, 111320, 0⟩].map (fun r =>
        if r.id == 5 then { r with assetCount := (repairMatches 0
          ⟨[⟨1, 0, some (21/2), some 10, none, false⟩], [⟨5, 0, 10, 10, 111320, 0⟩], []⟩
          ⟨5, 0, 10, 10, 111320, 0⟩).length } else r)) := by
  have hpos : 0 < (repairMatches 0
      ⟨[⟨1, 0, some (21/2), some 10, none, false⟩], [⟨5, 0, 10, 10, 111320, 0⟩], []⟩
      ⟨5, 0, 10, 10, 111320, 0⟩).length := by
    norm_num [repairMatches, localDateString]
  exact ⟨hpos, (repair_amended 0
    ⟨[⟨1, 0, some (21/2), some 10, none, false⟩], [⟨5, 0, 10, 10, 111320, 0⟩], []⟩
    ⟨5, 0, 10, 10, 111320, 0⟩).2.2.1 hpos⟩

/-! ## Claim C10 — deleteAssets -/

theorem chunksOf200_cons (ids : List ℕ) (h : ids ≠ []) :
    chunksOf200 ids = ids.take 200 :: chunksOf200 (ids.drop 200) := by
  have hlen : 1 ≤ ids.length := List.length_pos.mpr h
  unfold chunksOf200
  have h1 : (ids.length + 199) / 200 = (ids.length - 1) / 200 + 1 := by omega
  have h2 : ((ids.drop 200).length + 199) / 200 = (ids.length - 1) / 200 := by
    rw [List.length_drop]; omega
  rw [h1, h2, List.range_succ_eq_map, List.map_cons]
  congr 1
  rw [List.map_map]
  refine List.map_congr_left fun k _ => ?_
  simp only [Function.comp_apply]
  rw [List.drop_drop, show 200 + 200 * k = 200 * (k + 1) from by ring]

theorem chunksOf200_flatten (ids : List ℕ) : (chunksOf200 ids).flatten = ids := by
  by_cases h : ids = []
  · subst h; rfl
  · rw [chunksOf200_cons ids h, List.flatten_cons,
        chunksOf200_flatten (ids.drop 200), List.take_append_drop]
termination_by ids.length
decreasing_by
  have : ids.length ≠ 0 := fun hc => h (List.length_eq_zero.mp hc)
  simp only [List.length_drop]
  omega

theorem deleteFold_enum_foldl (oracle : ℕ → DeleteOutcome)
    (ps : List (ℕ × List ℕ)) :
    ∀ acc : List ℕ × List ℕ,
    ps.foldl (fun acc p =>
      match oracle p.1 with
      | .ok => (acc.1 ++ p.2, acc.2)
      | .returnedFalse => (acc.1, acc.2 ++ p.2)
      | .threw => (acc.1, acc.2 ++ p.2)) acc =
    (acc.1 ++ ((ps.filter fun p => (oracle p.1).isOk).map Prod.snd).flatten,
     acc.2 ++ ((ps.filter fun p => !(oracle p.1).isOk).map Prod.snd).flatten) := by
  induction ps with
  | nil => intro acc; simp
  | cons p ps ih =>
    intro acc
    rw [List.foldl_cons]
    cases hor : oracle p.1 <;>
      simp [ih, hor, List.filter_cons, DeleteOutcome.isOk, List.append_assoc]

theorem deleteFold_spec (oracle : ℕ → DeleteOutcome) (chunks : List (List ℕ)) :
    deleteFold oracle chunks =
      (((chunks.enum.filter fun p => (oracle p.1).isOk).map Prod.snd).flatten,
       ((chunks.enum.filter fun p => !(oracle p.1).isOk).map Prod.snd).flatten) := by
  unfold deleteFold
  rw [deleteFold_enum_foldl]
  simp

set_option maxRecDepth 8000 in
/-- Claim C10, counterexample: the ids are processed in chunks of 200 with
no de-duplication, so an id that occurs twice, in two different chunks, can
end up in deletedIds and in failedIds at once — here 201 ids where id 0
opens the list and also closes it, the first chunk resolves true and the
second resolves false, so 0 is reported both deleted and failed. -/
theorem deleteAssets_not_disjoint :
    0 ∈ (deleteAssets
        (fun k => if k = 0 then DeleteOutcome.ok else DeleteOutcome.returnedFalse)
        (List.range 200 ++ [0])).2.1 ∧
    0 ∈ (deleteAssets
        (fun k => if k = 0 then DeleteOutcome.ok else DeleteOutcome.returnedFalse)
        (List.range 200 ++ [0])).2.2 := by
  decide

/-- Claim C10 (amended): deletedIds and failedIds together are a
permutation of the input ids; the success flag is true exactly when
failedIds is empty; every internal chunk has at most 200 ids and goes
wholly to deletedIds or wholly to failedIds; and when the input ids are
distinct, deletedIds and failedIds are disjoint. -/
theorem deleteAssets_amended (oracle : ℕ → DeleteOutcome) (ids : List ℕ) :
    List.Perm ((deleteAssets oracle ids).2.1 ++ (deleteAssets oracle ids).2.2) ids ∧
    ((deleteAssets oracle ids).1 = true ↔ (deleteAssets oracle ids).2.2 = []) ∧
    (∀ c ∈ chunksOf200 ids, c.length ≤ 200 ∧
      (c ⊆ (deleteAssets oracle ids).2.1 ∨ c ⊆ (deleteAssets oracle ids).2.2)) ∧
    (ids.Nodup →
      ∀ x ∈ (deleteAssets oracle ids).2.1, x ∉ (deleteAssets oracle ids).2.2) := by
  have hfold := deleteFold_spec oracle (chunksOf200 ids)
  have hdel : (deleteAssets oracle ids).2.1 =
      (((chunksOf200 ids).enum.filter fun p => (oracle p.1).isOk).map Prod.snd).flatten := by
    show (deleteFold oracle (chunksOf200 ids)).1 = _
    rw [hfold]
  have hfail : (deleteAssets oracle ids).2.2 =
      (((chunksOf200 ids).enum.filter fun p => !(oracle p.1).isOk).map Prod.snd).flatten := by
    show (deleteFold oracle (chunksOf200 ids)).2 = _
    rw [hfold]
  have hsucc : (deleteAssets oracle ids).1 =
      ((deleteAssets oracle ids).2.2).isEmpty := rfl
  have hperm : List.Perm
      ((deleteAssets oracle ids).2.1 ++ (deleteAssets oracle ids).2.2) ids := by
    rw [hdel, hfail, ← List.flatten_append _ _, ← List.map_append]
    have h1 : List.Perm
        (((chunksOf200 ids).enum.filter fun p => (oracle p.1).isOk) ++
         ((chunksOf200 ids).enum.filter fun p => !(oracle p.1).isOk))
        (chunksOf200 ids).enum :=
      List.filter_append_perm _ _
    have h2 := (h1.map Prod.snd).flatMap_right id
    simp only [List.flatMap_def, List.map_id] at h2
    have h3 : ((chunksOf200 ids).enum.map Prod.snd).flatten = ids := by
      rw [List.enum_map_snd, chunksOf200_flatten]
    rw [h3] at h2
    exact h2
  refine ⟨hperm, ?_, ?_, ?_⟩
  · rw [hsucc]
    exact List.isEmpty_iff
  · intro c hc
    constructor
    · obtain ⟨k, -, rfl⟩ := List.mem_map.mp hc
      exact List.length_take_le _ _
    · obtain ⟨k, hk, hck⟩ := List.mem_iff_getElem.mp hc
      have hkE : k < (chunksOf200 ids).enum.length := by
        rw [List.enum_length]; exact hk
      have hmemE : (k, c) ∈ (chunksOf200 ids).enum := by
        have henum : (chunksOf200 ids).enum[k] = (k, c) := by
          rw [List.getElem_enum, hck]
        rw [← henum]
        exact List.getElem_mem hkE
      cases hok : (oracle k).isOk with
      | true =>
        left
        rw [hdel]
        intro x hx
        refine List.mem_flatten.mpr ⟨c, ?_, hx⟩
        refine List.mem_map.mpr ⟨(k, c), ?_, rfl⟩
        exact List.mem_filter.mpr ⟨hmemE, hok⟩
      | false =>
        right
        rw [hfail]
        intro x hx
        refine List.mem_flatten.mpr ⟨c, ?_, hx⟩
        refine List.mem_map.mpr ⟨(k, c), ?_, rfl⟩
        exact List.mem_filter.mpr ⟨hmemE, by rw [hok]; rfl⟩
  · intro hnd x hx1 hx2
    have hnd2 := hperm.nodup_iff.mpr hnd
    obtain ⟨-, -, hdisj⟩ := List.nodup_append.mp hnd2
    exact hdisj hx1 hx2

/-! ## Claim C6 — full-scan progress events -/

theorem sp_ge_10 (T i : ℕ) : 10 ≤ batchStartProgress T i := by
  unfold batchStartProgress
  have h : (0:ℚ) ≤ (i:ℚ) / (T:ℚ) := by positivity
  linarith

theorem sp_le_70 (T i : ℕ) (h : i ≤ T) (hT : 1 ≤ T) : batchStartProgress T i ≤ 70 := by
  unfold batchStartProgress
  have hT0 : (0:ℚ) < (T:ℚ) := by exact_mod_cast hT
  have h1 : (i:ℚ) / (T:ℚ) ≤ 1 := by
    rw [div_le_one hT0]; exact_mod_cast h
  linarith

theorem ep_eq_sp (T i : ℕ) : batchEndProgress T i = batchStartProgress T (i+1) := by
  unfold batchStartProgress batchEndProgress
  push_cast
  ring

theorem sp_mono (T : ℕ) {i j : ℕ} (h : i ≤ j) :
    batchStartProgress T i ≤ batchStartProgress T j := by
  unfold batchStartProgress
  rcases Nat.eq_zero_or_pos T with hT | hT
  · subst hT; norm_num
  · have hT0 : (0:ℚ) < (T:ℚ) := by exact_mod_cast hT
    have hij : (i:ℚ) ≤ (j:ℚ) := by exact_mod_cast h
    gcongr

theorem sp_step2 (T i : ℕ) (h30 : T ≤ 30) (hT : 1 ≤ T) :
    batchStartProgress T i + 2 ≤ batchStartProgress T (i+1) := by
  unfold batchStartProgress
  have hT0 : (0:ℚ) < (T:ℚ) := by exact_mod_cast hT
  have h30Q : (T:ℚ) ≤ 30 := by exact_mod_cast h30
  have key : (2:ℚ) ≤ 60 / (T:ℚ) := by
    rw [le_div_iff₀ hT0]; nlinarith
  have expand : (((i:ℚ)+1))/(T:ℚ)*60 = (i:ℚ)/(T:ℚ)*60 + 60/(T:ℚ) := by
    field_simp
    ring
  push_cast
  linarith

theorem sp_le_ep (T i : ℕ) : batchStartProgress T i ≤ batchEndProgress T i := by
  rw [ep_eq_sp]
  exact sp_mono T (Nat.le_succ i)

theorem fg_mem_bounds (T i len : ℕ) :
    ∀ x ∈ foregroundBatchEvents T i len,
      batchStartProgress T i ≤ x ∧ x ≤ batchEndProgress T i := by
  intro x hx
  have hans := sp_le_ep T i
  unfold foregroundBatchEvents at hx
  rcases List.mem_cons.mp hx with rfl | hx
  · exact ⟨le_refl _, hans⟩
  · obtain ⟨k, hk, rfl⟩ := List.mem_map.mp hx
    rw [List.mem_range] at hk
    have hlen0 : (0:ℚ) < (len:ℚ) := by
      exact_mod_cast Nat.lt_of_le_of_lt (Nat.zero_le k) hk
    have hfac0 : (0:ℚ) ≤ ((k:ℚ)+1)/(len:ℚ) := by positivity
    have hfac1 : ((k:ℚ)+1)/(len:ℚ) ≤ 1 := by
      rw [div_le_one hlen0]
      have : k + 1 ≤ len := hk
      exact_mod_cast this
    have hΔ : (0:ℚ) ≤ batchEndProgress T i - batchStartProgress T i := by linarith
    constructor
    · nlinarith
    · nlinarith

theorem fg_chain (T i len : ℕ) :
    List.Chain' (· ≤ ·) (foregroundBatchEvents T i len) := by
  have hans := sp_le_ep T i
  have hΔ : (0:ℚ) ≤ batchEndProgress T i - batchStartProgress T i := by linarith
  unfold foregroundBatchEvents
  apply List.Chain'.cons'
  · rw [List.chain'_map]
    cases len with
    | zero => simp
    | succ n =>
      rw [List.chain'_range_succ]
      intro m hm
      have hlen0 : (0:ℚ) < ((n:ℚ)+1) := by positivity
      have hfac : ((m:ℚ)+1)/((n:ℚ)+1) ≤ (((m:ℚ)+1)+1)/((n:ℚ)+1) := by gcongr <;> linarith
      push_cast
      nlinarith
  · intro y hy
    cases len with
    | zero => simp at hy
    | succ n =>
      rw [List.range_succ_eq_map, List.map_cons] at hy
      simp only [List.head?_cons, Option.mem_some_iff] at hy
      subst hy
      have hlen0 : (0:ℚ) < ((Nat.succ n:ℚ)) := by positivity
      have hfac0 : (0:ℚ) ≤ ((0:ℚ)+1)/((Nat.succ n:ℚ)) := by positivity
      push_cast at hfac0 ⊢
      nlinarith

theorem fg_head (T i len : ℕ) :
    (foregroundBatchEvents T i len).head? = some (batchStartProgress T i) := rfl

theorem fg_getLast_pos (T i len : ℕ) (h : 0 < len) :
    (foregroundBatchEvents T i len).getLast? = some (batchEndProgress T i) := by
  obtain ⟨n, rfl⟩ : ∃ n, len = n + 1 := ⟨len - 1, by omega⟩
  unfold foregroundBatchEvents
  rw [List.range_succ, List.map_append, List.map_singleton]
  have hsplit : ∀ (a b : ℚ) (l : List ℚ), (a :: (l ++ [b])) = (a :: l) ++ [b] := by
    intro a b l; simp
  rw [hsplit, List.getLast?_concat]
  have hl : ((n:ℚ)+1) ≠ 0 := by positivity
  congr 1
  push_cast
  rw [div_self hl]
  ring

theorem bg_mem_bounds (T i len : ℕ) :
    ∀ x ∈ backgroundBatchEvents T i len,
      batchStartProgress T i ≤ x ∧ x ≤ batchStartProgress T i + 2 := by
  intro x hx
  unfold backgroundBatchEvents at hx
  rcases List.mem_cons.mp hx with rfl | hx
  · constructor <;> linarith
  · rw [List.eq_of_mem_replicate hx]
    constructor <;> linarith

theorem bg_chain (T i len : ℕ) :
    List.Chain' (· ≤ ·) (backgroundBatchEvents T i len) := by
  unfold backgroundBatchEvents
  apply List.Chain'.cons'
  · exact List.chain'_replicate_of_rel _ (le_refl _)
  · intro y hy
    cases len with
    | zero => simp at hy
    | succ n =>
      rw [List.replicate_succ] at hy
      simp only [List.head?_cons, Option.mem_some_iff] at hy
      subst hy
      linarith

theorem bg_head (T i len : ℕ) :
    (backgroundBatchEvents T i len).head? = some (batchStartProgress T i) := rfl

/-- Claim C6, counterexample: a full scan of 31 assets with batch size 1
(31 batches).  Each background batch reports its per-item events at
batchStartProgress + 2, but consecutive batch starts are only
60/31 < 2 points apart, so the percentage decreases at every background
batch boundary — e.g. from 10 + 60/31 + 2 down to 10 + 120/31. -/
theorem fullScanProgress_not_monotone :
    ¬ List.Chain' (· ≤ ·) (fullScanProgress 31 1 (fun _ => 1)) := by
  intro h
  simp only [fullScanProgress, foregroundBatchEvents, backgroundBatchEvents,
    batchStartProgress, batchEndProgress] at h
  norm_num [List.chain'_cons, List.flatMap_cons, List.range_succ] at h

/-- Claim C6 (amended): every percentage emitted during a full scan lies
within 0 to 100; and the sequence is monotonically non-decreasing whenever
the scan has at most 30 batches (the per-item events of a background batch
sit 2 points above the batch start, and consecutive batch starts are
60/totalBatches apart, which is at least 2 exactly when totalBatches ≤ 30;
the caller's batch size of 50 keeps runs of up to 1500 assets monotone). -/
theorem fullScanProgress_amended (totalCount batchSize : ℕ) (batchLen : ℕ → ℕ) :
    (∀ x ∈ fullScanProgress totalCount batchSize batchLen, 0 ≤ x ∧ x ≤ 100) ∧
    ((totalCount + batchSize - 1) / batchSize ≤ 30 →
      List.Chain' (· ≤ ·) (fullScanProgress totalCount batchSize batchLen)) := by
  constructor
  · intro x hx
    simp only [fullScanProgress] at hx
    generalize hT : (totalCount + batchSize - 1) / batchSize = T at hx
    rw [List.mem_append] at hx
    rcases hx with hx | hx
    · simp only [List.mem_cons, List.not_mem_nil, or_false] at hx
      rcases hx with rfl | rfl | rfl | rfl <;> norm_num
    · by_cases hT0 : T = 0
      · rw [if_pos hT0] at hx
        simp only [List.mem_singleton] at hx
        subst hx; norm_num
      · rw [if_neg hT0] at hx
        have hT1 : 1 ≤ T := Nat.pos_of_ne_zero hT0
        rw [List.mem_append] at hx
        rcases hx with hx | hx
        · have hb := fg_mem_bounds T 0 (batchLen 0) x hx
          have h10 := sp_ge_10 T 0
          have h70 : batchEndProgress T 0 ≤ 70 := by
            rw [ep_eq_sp]; exact sp_le_70 T 1 hT1 hT1
          constructor <;> linarith
        · by_cases hl0 : 0 < batchLen 0
          · rw [if_pos hl0] at hx
            rcases List.mem_cons.mp hx with rfl | hx
            · have h10 := sp_ge_10 T 0
              have hse := sp_le_ep T 0
              have h70 : batchEndProgress T 0 ≤ 70 := by
                rw [ep_eq_sp]; exact sp_le_70 T 1 hT1 hT1
              constructor <;> linarith
            · by_cases hT2 : 1 < T
              · rw [if_pos hT2] at hx
                rw [List.mem_append] at hx
                rcases hx with hx | hx
                · rw [List.mem_flatMap] at hx
                  obtain ⟨k, hk, hxk⟩ := hx
                  rw [List.mem_range] at hk
                  have hb := bg_mem_bounds T (k+1) (batchLen (k+1)) x hxk
                  have h10 := sp_ge_10 T (k+1)
                  have h70 : batchStartProgress T (k+1) ≤ 70 :=
                    sp_le_70 T (k+1) (by omega) hT1
                  constructor <;> linarith
                · simp only [List.mem_cons, List.not_mem_nil, or_false] at hx
                  rcases hx with rfl | rfl <;> norm_num
              · rw [if_neg hT2] at hx
                simp only [List.mem_cons, List.not_mem_nil, or_false] at hx
                rcases hx with rfl | rfl | rfl | rfl <;> norm_num
          · rw [if_neg hl0] at hx
            rw [List.mem_append] at hx
            rcases hx with hx | hx
            · rw [List.mem_flatMap] at hx
              obtain ⟨k, hk, hxk⟩ := hx
              rw [List.mem_range] at hk
              have hb := fg_mem_bounds T (k+1) (batchLen (k+1)) x hxk
              have h10 := sp_ge_10 T (k+1)
              have h70 : batchEndProgress T (k+1) ≤ 70 := by
                rw [ep_eq_sp]; exact sp_le_70 T (k+2) (by omega) hT1
              constructor <;> linarith
            · by_cases hall : (List.range T).all (fun k => batchLen k = 0)
              · rw [if_pos hall] at hx
                simp only [List.mem_singleton] at hx
                subst hx; norm_num
              · rw [if_neg hall] at hx
                simp only [List.mem_cons, List.not_mem_nil, or_false] at hx
                rcases hx with rfl | rfl | rfl | rfl <;> norm_num
  · intro h30
    simp only [fullScanProgress]
    generalize hT : (totalCount + batchSize - 1) / batchSize = T at h30 ⊢
    refine List.Chain'.append (by norm_num [List.chain'_cons, List.chain'_singleton]) ?_ ?_
    · by_cases hT0 : T = 0
      · rw [if_pos hT0]
        exact List.chain'_singleton _
      · rw [if_neg hT0]
        have hT1 : 1 ≤ T := Nat.pos_of_ne_zero hT0
        refine List.Chain'.append (fg_chain T 0 (batchLen 0)) ?_ ?_
        · by_cases hl0 : 0 < batchLen 0
          · rw [if_pos hl0]
            apply List.Chain'.cons'
            · by_cases hT2 : 1 < T
              · rw [if_pos hT2]
                refine List.Chain'.append ?_
                  (by norm_num [List.chain'_cons, List.chain'_singleton]) ?_
                · rw [List.flatMap_def]
                  have hnn : [] ∉ (List.range (T-1)).map
                      (fun k => backgroundBatchEvents T (k+1) (batchLen (k+1))) := by
                    intro hc
                    obtain ⟨k, -, hk⟩ := List.mem_map.mp hc
                    simp [backgroundBatchEvents] at hk
                  rw [List.chain'_flatten hnn]
                  constructor
                  · intro l hl
                    obtain ⟨k, -, rfl⟩ := List.mem_map.mp hl
                    exact bg_chain T (k+1) (batchLen (k+1))
                  · rw [List.chain'_map]
                    cases hT3 : T - 1 with
                    | zero => simp
                    | succ m =>
                      rw [List.chain'_range_succ]
                      intro k hk x hxl y hyh
                      simp only [Nat.succ_eq_add_one] at hxl hyh ⊢
                      have hx' : x ∈ backgroundBatchEvents T (k+1) (batchLen (k+1)) :=
                        List.mem_of_mem_getLast? hxl
                      have hb := (bg_mem_bounds T (k+1) (batchLen (k+1)) x hx').2
                      rw [bg_head, Option.mem_some_iff] at hyh
                      subst hyh
                      have hstep := sp_step2 T (k+1) h30 hT1
                      linarith
                · intro x hxl y hyh
                  rw [List.flatMap_def] at hxl
                  have hx' := List.mem_of_mem_getLast? hxl
                  rw [List.mem_flatten] at hx'
                  obtain ⟨l, hl, hxl2⟩ := hx'
                  obtain ⟨k, hk, rfl⟩ := List.mem_map.mp hl
                  rw [List.mem_range] at hk
                  have hb := (bg_mem_bounds T (k+1) (batchLen (k+1)) x hxl2).2
                  have h70 : batchStartProgress T (k+1) ≤ 70 :=
                    sp_le_70 T (k+1) (by omega) hT1
                  simp only [List.head?_cons, Option.mem_some_iff] at hyh
                  subst hyh
                  linarith
              · rw [if_neg hT2]
                norm_num [List.chain'_cons, List.chain'_singleton]
            · intro y hyh
              have hy' := List.mem_of_mem_head? hyh
              have h70 : batchEndProgress T 0 ≤ 70 := by
                rw [ep_eq_sp]; exact sp_le_70 T 1 hT1 hT1
              by_cases hT2 : 1 < T
              · rw [if_pos hT2] at hy'
                rw [List.mem_append] at hy'
                rcases hy' with hy' | hy'
                · rw [List.mem_flatMap] at hy'
                  obtain ⟨k, hk, hyk⟩ := hy'
                  have hb := (bg_mem_bounds T (k+1) (batchLen (k+1)) y hyk).1
                  have hmono : batchStartProgress T 1 ≤ batchStartProgress T (k+1) :=
                    sp_mono T (by omega)
                  rw [ep_eq_sp]
                  linarith
                · simp only [List.mem_cons, List.not_mem_nil, or_false] at hy'
                  rcases hy' with rfl | rfl <;> linarith
              · rw [if_neg hT2] at hy'
                simp only [List.mem_cons, List.not_mem_nil, or_false] at hy'
                rcases hy' with rfl | rfl | rfl | rfl <;> linarith
          · rw [if_neg hl0]
            refine List.Chain'.append ?_ ?_ ?_
            · rw [List.flatMap_def]
              have hnn : [] ∉ (List.range (T-1)).map
                  (fun k => foregroundBatchEvents T (k+1) (batchLen (k+1))) := by
                intro hc
                obtain ⟨k, -, hk⟩ := List.mem_map.mp hc
                simp [foregroundBatchEvents] at hk
              rw [List.chain'_flatten hnn]
              constructor
              · intro l hl
                obtain ⟨k, -, rfl⟩ := List.mem_map.mp hl
                exact fg_chain T (k+1) (batchLen (k+1))
              · rw [List.chain'_map]
                cases hT3 : T - 1 with
                | zero => simp
                | succ m =>
                  rw [List.chain'_range_succ]
                  intro k hk x hxl y hyh
                  simp only [Nat.succ_eq_add_one] at hxl hyh ⊢
                  have hx' : x ∈ foregroundBatchEvents T (k+1) (batchLen (k+1)) :=
                    List.mem_of_mem_getLast? hxl
                  have hb := (fg_mem_bounds T (k+1) (batchLen (k+1)) x hx').2
                  rw [fg_head, Option.mem_some_iff] at hyh
                  subst hyh
                  rw [← ep_eq_sp]
                  exact hb
            · by_cases hall : (List.range T).all (fun k => batchLen k = 0)
              · rw [if_pos hall]
                exact List.chain'_singleton _
              · rw [if_neg hall]
                norm_num [List.chain'_cons, List.chain'_singleton]
            · intro x hxl y hyh
              rw [List.flatMap_def] at hxl
              have hx' := List.mem_of_mem_getLast? hxl
              rw [List.mem_flatten] at hx'
              obtain ⟨l, hl, hxl2⟩ := hx'
              obtain ⟨k, hk, rfl⟩ := List.mem_map.mp hl
              rw [List.mem_range] at hk
              have hb := (fg_mem_bounds T (k+1) (batchLen (k+1)) x hxl2).2
              have h70 : batchEndProgress T (k+1) ≤ 70 := by
                rw [ep_eq_sp]; exact sp_le_70 T (k+2) (by omega) hT1
              have hy' := List.mem_of_mem_head? hyh
              by_cases hall : (List.range T).all (fun k => batchLen k = 0)
              · rw [if_pos hall] at hy'
                simp only [List.mem_singleton] at hy'
                subst hy'
                linarith
              · rw [if_neg hall] at hy'
                simp only [List.mem_cons, List.not_mem_nil, or_false] at hy'
                rcases hy' with rfl | rfl | rfl | rfl <;> linarith
        · intro x hxl y hyh
          by_cases hl0 : 0 < batchLen 0
          · rw [fg_getLast_pos T 0 (batchLen 0) hl0, Option.mem_some_iff] at hxl
            rw [if_pos hl0] at hyh
            simp only [List.head?_cons, Option.mem_some_iff] at hyh
            subst hxl
            subst hyh
            exact le_refl _
          · rw [if_neg hl0] at hyh
            have hlen0 : batchLen 0 = 0 := by omega
            rw [hlen0] at hxl
            have hfg0 : (foregroundBatchEvents T 0 0).getLast? =
                some (batchStartProgress T 0) := rfl
            rw [hfg0, Option.mem_some_iff] at hxl
            subst hxl
            have h10 : batchStartProgress T 0 = 10 := by
              unfold batchStartProgress; norm_num
            have hy' := List.mem_of_mem_head? hyh
            rw [List.mem_append] at hy'
            rcases hy' with hy' | hy'
            · rw [List.mem_flatMap] at hy'
              obtain ⟨k, hk, hyk⟩ := hy'
              have hb := (fg_mem_bounds T (k+1) (batchLen (k+1)) y hyk).1
              have hmono : batchStartProgress T 0 ≤ batchStartProgress T (k+1) :=
                sp_mono T (by omega)
              linarith
            · rw [h10]
              by_cases hall : (List.range T).all (fun k => batchLen k = 0)
              · rw [if_pos hall] at hy'
                simp only [List.mem_singleton] at hy'
                subst hy'; norm_num
              · rw [if_neg hall] at hy'
                simp only [List.mem_cons, List.not_mem_nil, or_false] at hy'
                rcases hy' with rfl | rfl | rfl | rfl <;> norm_num
    · intro x hxl y hyh
      have hxv : x = 10 := by
        have h4 : ([0, 2, 5, 10] : List ℚ).getLast? = some 10 := rfl
        rw [h4, Option.mem_some_iff] at hxl
        exact hxl.symm
      subst hxv
      by_cases hT0 : T = 0
      · rw [if_pos hT0] at hyh
        simp only [List.head?_cons, Option.mem_some_iff] at hyh
        subst hyh
        norm_num
      · rw [if_neg hT0] at hyh
        rw [List.head?_append_of_ne_nil] at hyh
        · rw [fg_head, Option.mem_some_iff] at hyh
          subst hyh
          exact sp_ge_10 T 0
        · simp [foregroundBatchEvents]

/-- Witness for fullScanProgress_amended: a 100-asset scan with batch size
50 (2 batches, within the monotone range) produces a non-decreasing event
sequence. -/
theorem fullScanProgress_amended_witness :
    (100 + 50 - 1) / 50 ≤ 30 ∧
    List.Chain' (· ≤ ·) (fullScanProgress 100 50 (fun _ => 1)) :=
  ⟨by decide, (fullScanProgress_amended 100 50 (fun _ => 1)).2 (by decide)⟩

end PhotoMap
